import Mathlib

/-!
# Dokubox: the client-side data-access layer

A shallow embedding of `frontend/src/services/api.js` (`documentsAPI`,
`authAPI.login`, `authAPI.register`, `categoriesAPI`, `mapDocument`,
`uploadImageIfNeeded`), of `filterDocuments` and `loadData` in
`frontend/src/screens/DashboardScreen.js`, of `handleSubmit` in
`frontend/src/screens/DocumentUploadScreen.js`, of the patch built by
`handleSave` in `frontend/src/screens/DocumentDetailScreen.js` and of
`authContext.signOut` in `frontend/App.js`.

Conventions of the embedding.

* A JavaScript value that is "a string, or `undefined`/`null`" is an
  `Option String`; `none` stands for both `undefined` and `null`.
  Strings are sequences of Unicode scalar values.
* An `async` function that talks to the backend is a function
  `World → Except JSError α × World`: it returns the resolved value or the
  thrown error, together with the world it leaves behind.
* The Appwrite backend (account, database collection, storage bucket) and
  the device file system are outside the repository.  They are modelled by the
  `World` record and the primitives `account.*`, `databases.*`,
  `storage.createFile`, `FileSystem.getInfoAsync`, `AsyncStorage.removeItem`
  and `ID.unique`.  Every
  primitive call is appended to `World.log`, and each one consumes one entry of
  `World.faults`, which can make that particular call fail without effect.
* The `{ data: { ... } }` envelope around the value an API function resolves to
  is dropped: the functions return the enclosed value.
-/

namespace Dokubox

/-! ## JavaScript values -/

/-- A thrown JavaScript `Error`, identified by its `message`. -/
structure JSError where
  message : String
deriving DecidableEq, Repr

/-- The expression `x || d` for an optional string `x` and a string `d`:
`x` when it is truthy (present and non-empty), `d` otherwise. -/
def jsOr (x : Option String) (d : String) : String :=
  match x with
  | some s => if s = "" then d else s
  | none => d

/-- The expression `x || null` for an optional string `x`. -/
def jsOrNull (x : Option String) : Option String :=
  match x with
  | some s => if s = "" then none else some s
  | none => none

/-- Truthiness of an optional string: present and non-empty. -/
def truthy (x : Option String) : Bool :=
  match x with
  | some s => decide (s ≠ "")
  | none => false

/-- The method call `s.includes(q)`: `q` occurs in `s` as a contiguous run of
characters. -/
def includes (s q : String) : Bool := decide (q.toList <:+: s.toList)

/-! ## Configuration constants (`lib/appwrite.js`, `services/api.js`) -/

def APPWRITE_ENDPOINT : String := "https://fra.cloud.appwrite.io/v1"
def APPWRITE_PROJECT_ID : String := "695d738e00398baf6e21"
def APPWRITE_DATABASE_ID : String := "696f686b002b4e939f6e"
def APPWRITE_DOCUMENTS_COLLECTION_ID : String := "documents"
def APPWRITE_BUCKET_ID : String := "696f68c300002c339409"

/-- An entry of `STATIC_CATEGORIES`. -/
structure Category where
  id : String
  name : String
deriving DecidableEq, Repr

def STATIC_CATEGORIES : List Category :=
  [ { id := "electronics", name := "Electronics" },
    { id := "appliances", name := "Appliances" },
    { id := "furniture", name := "Furniture" },
    { id := "clothing", name := "Clothing" },
    { id := "documents", name := "Documents" } ]

/-! ## Data model -/

/-- The identity `account.get()` resolves to (`$id`, `name`, `email`,
`$createdAt`). -/
structure User where
  id : String
  name : String
  email : String
  createdAt : String
deriving DecidableEq, Repr

/-- A record of the remote `documents` collection.  `id` and `createdAt` are
the system attributes `$id` and `$createdAt`; every other attribute may be
missing from a record. -/
structure RawDoc where
  id : String
  createdAt : String
  userId : Option String
  title : Option String
  categoryId : Option String
  store : Option String
  uploadDate : Option String
  expirationDate : Option String
  notes : Option String
  imageUrl : Option String
  imageFileId : Option String
deriving DecidableEq, Repr

/-- The object `mapDocument` builds: the document as the screens see it. -/
structure Document where
  id : String
  title : Option String
  categoryId : Option String
  categoryName : String
  store : Option String
  uploadDate : String
  expirationDate : Option String
  notes : Option String
  imageUrl : Option String
deriving DecidableEq, Repr

/-- The attribute object sent with `createDocument` / `updateDocument`.  A
field that is `none` is a key that is missing or `undefined`, which is not
transmitted. -/
structure Payload where
  userId : Option String
  title : Option String
  categoryId : Option String
  store : Option String
  expirationDate : Option String
  notes : Option String
  imageUrl : Option String
  imageFileId : Option String
deriving DecidableEq, Repr

/-- An image asset as returned by the image picker. -/
structure ImageAsset where
  uri : String
  fileName : Option String
  filename : Option String
  mimeType : Option String
  type : Option String
deriving DecidableEq, Repr

/-- The `file` object `uploadImageIfNeeded` hands to `storage.createFile`. -/
structure FileInput where
  uri : String
  name : String
  type : String
  size : Nat
deriving DecidableEq, Repr

/-- A file held by the storage bucket. -/
structure StoredFile where
  id : String
  file : FileInput
deriving DecidableEq, Repr

/-- The value `uploadImageIfNeeded` resolves to for a present asset. -/
structure ImageMeta where
  fileId : String
  imageUrl : String
deriving DecidableEq, Repr

/-- The `data` argument of `documentsAPI.create` and `documentsAPI.update`. -/
structure DocData where
  title : Option String
  categoryId : Option String
  store : Option String
  expirationDate : Option String
  notes : Option String
  image : Option ImageAsset
  imageChanged : Bool
  deleteImage : Bool
deriving DecidableEq, Repr

/-! ## The backend -/

/-- Attributes a query can name. -/
inductive Attr where
  | id | createdAt | userId | title | categoryId | store | uploadDate
  | expirationDate | notes | imageUrl | imageFileId
deriving DecidableEq, Repr

/-- The `Query` helpers of the SDK that the repository uses. -/
inductive Query where
  | equal (field : Attr) (value : String)
  | orderDesc (field : Attr)
  | orderAsc (field : Attr)
deriving DecidableEq, Repr

/-- A call that leaves the client. -/
inductive Call where
  | accountGet
  | listDocuments (queries : List Query)
  | getDocument (id : String)
  | createDocument (id : String) (data : Payload)
  | updateDocument (id : String) (data : Payload)
  | deleteDocument (id : String)
  | getInfoAsync (uri : String)
  | createFile (bucket : String) (id : String) (file : FileInput)
  | createEmailPasswordSession (email : String) (password : String)
  | setTimeout (ms : Nat)
  | accountCreate (userId : String) (email : String) (password : String) (name : String)
  | deleteSession (sessionId : String)
  | removeItem (key : String)
deriving DecidableEq, Repr

/-- An identity registered with the backend, with its credentials. -/
structure Account where
  email : String
  password : String
  user : User
deriving DecidableEq, Repr

/-- Whether a call is a `createDocument` call. -/
def Call.isCreateDocument : Call → Bool
  | .createDocument _ _ => true
  | _ => false

/-- Everything outside the client that the data-access layer reads or writes. -/
structure World where
  /-- the identity of the active session, if there is one -/
  session : Option User
  /-- the records of the `documents` collection -/
  documents : List RawDoc
  /-- the files of the storage bucket -/
  files : List StoredFile
  /-- sizes of the files on the device, by uri -/
  localFiles : List (String × Nat)
  /-- the identifiers `ID.unique()` is going to produce -/
  ids : List String
  /-- the timestamp the backend stamps new records with -/
  now : String
  /-- scripted failures: the n-th entry decides the n-th upcoming call -/
  faults : List (Option JSError)
  /-- the calls made so far, oldest first -/
  log : List Call
  /-- the identities registered with the backend -/
  accounts : List Account := []
  /-- the entries of the key-value store on the device (`AsyncStorage`) -/
  storage : List (String × String) := []
deriving DecidableEq, Repr

/-- The scripted failure of the upcoming call, if any. -/
def World.fault (w : World) : Option JSError :=
  match w.faults with
  | some e :: _ => some e
  | _ => none

/-- The world once call `c` has been made: the call is logged and its entry of
the failure script is used up. -/
def World.next (w : World) (c : Call) : World :=
  { w with faults := w.faults.tail, log := w.log ++ [c] }

def unauthorized : JSError := ⟨"User (role: guests) missing scope (account)"⟩
def documentNotFound : JSError := ⟨"Document with the requested ID could not be found."⟩
def documentAlreadyExists : JSError :=
  ⟨"Document with the requested ID already exists."⟩
def fileAlreadyExists : JSError := ⟨"File with the requested ID already exists."⟩
def invalidId : JSError := ⟨"Invalid id param: UID must contain at most 36 chars."⟩

/-- The backend's rule for an id chosen by the client: 1 to 36 characters, each a
letter, a digit, a period, a hyphen or an underscore, the first one a letter or
a digit. -/
def validId (id : String) : Bool :=
  decide (1 ≤ id.toList.length ∧ id.toList.length ≤ 36) &&
  id.toList.all (fun c => c.isAlphanum || c == '.' || c == '-' || c == '_') &&
  id.toList.head?.any Char.isAlphanum

/-- The SDK call `account.get()`. -/
def account.get (w : World) : Except JSError User × World :=
  match w.fault with
  | some e => (.error e, w.next .accountGet)
  | none =>
    match w.session with
    | some u => (.ok u, w.next .accountGet)
    | none => (.error unauthorized, w.next .accountGet)

def sessionActive : JSError :=
  ⟨"Creation of a session is prohibited when a session is active."⟩
def invalidCredentials : JSError :=
  ⟨"Invalid credentials. Please check the email and password."⟩

/-- The SDK call `account.createEmailPasswordSession(email, password)`: refused
while a session is active and for unknown credentials; otherwise the session of
the matching identity becomes the active one. -/
def account.createEmailPasswordSession (email password : String) (w : World) :
    Except JSError Unit × World :=
  match w.fault with
  | some e => (.error e, w.next (.createEmailPasswordSession email password))
  | none =>
    match w.session with
    | some _ => (.error sessionActive, w.next (.createEmailPasswordSession email password))
    | none =>
      match w.accounts.find? (fun a => decide (a.email = email ∧ a.password = password)) with
      | none => (.error invalidCredentials, w.next (.createEmailPasswordSession email password))
      | some a =>
        (.ok (),
         { w.next (.createEmailPasswordSession email password) with session := some a.user })

def userAlreadyExists : JSError :=
  ⟨"A user with the same id, email, or phone already exists in this project."⟩

/-- The SDK call `account.create(userId, email, password, name)`: refused for a
malformed id and for an id or email that is taken; otherwise the identity is
registered. -/
def account.create (userId email password name : String) (w : World) :
    Except JSError Unit × World :=
  match w.fault with
  | some e => (.error e, w.next (.accountCreate userId email password name))
  | none =>
    if validId userId = false then
      (.error invalidId, w.next (.accountCreate userId email password name))
    else if w.accounts.any (fun a => decide (a.email = email ∨ a.user.id = userId)) then
      (.error userAlreadyExists, w.next (.accountCreate userId email password name))
    else
      (.ok (),
       { w.next (.accountCreate userId email password name) with
         accounts := w.accounts ++
           [{ email := email, password := password,
              user := { id := userId, name := name, email := email, createdAt := w.now } }] })

/-- The SDK call `account.deleteSession(sessionId)`: refused when nobody is
signed in; otherwise the active session ends. -/
def account.deleteSession (sessionId : String) (w : World) : Except JSError Unit × World :=
  match w.fault with
  | some e => (.error e, w.next (.deleteSession sessionId))
  | none =>
    match w.session with
    | none => (.error unauthorized, w.next (.deleteSession sessionId))
    | some _ => (.ok (), { w.next (.deleteSession sessionId) with session := none })

/-- The call `AsyncStorage.removeItem(key)`: the entry under `key`, if there is
one, is removed. -/
def AsyncStorage.removeItem (key : String) (w : World) : Except JSError Unit × World :=
  match w.fault with
  | some e => (.error e, w.next (.removeItem key))
  | none =>
    (.ok (),
     { w.next (.removeItem key) with storage := w.storage.filter (fun kv => decide (kv.1 ≠ key)) })

/-- The pause `await new Promise((r) => setTimeout(r, ms))`: it is recorded in
the log, uses up no entry of the failure script and cannot fail. -/
def World.pause (w : World) (ms : Nat) : World :=
  { w with log := w.log ++ [.setTimeout ms] }

/-- The SDK call `ID.unique()`. -/
def ID.unique (w : World) : String × World :=
  match w.ids with
  | [] => ("", w)
  | i :: rest => (i, { w with ids := rest })

/-- Value of an attribute of a stored record. -/
def RawDoc.attr (d : RawDoc) : Attr → Option String
  | .id => some d.id
  | .createdAt => some d.createdAt
  | .userId => d.userId
  | .title => d.title
  | .categoryId => d.categoryId
  | .store => d.store
  | .uploadDate => d.uploadDate
  | .expirationDate => d.expirationDate
  | .notes => d.notes
  | .imageUrl => d.imageUrl
  | .imageFileId => d.imageFileId

/-- Key a record is ordered by under an `order` query: the characters of the
attribute, compared lexicographically; a missing attribute counts as empty. -/
def RawDoc.sortKey (d : RawDoc) (a : Attr) : List Char := ((d.attr a).getD "").toList

/-- Apply one query to a list of records: `equal` keeps the matching records,
an `order` query sorts stably. -/
def Query.apply (q : Query) (ds : List RawDoc) : List RawDoc :=
  match q with
  | .equal a v => ds.filter (fun d => decide (d.attr a = some v))
  | .orderDesc a => ds.insertionSort (fun x y => y.sortKey a ≤ x.sortKey a)
  | .orderAsc a => ds.insertionSort (fun x y => x.sortKey a ≤ y.sortKey a)

/-- The page size of the backend: a list request that carries no limit query
is answered with at most 25 documents. -/
def defaultLimit : Nat := 25

/-- The SDK call `databases.listDocuments(db, collection, queries)`; it
resolves to the `documents` of the response.  Order queries are applied from
the last to the first, so the first one is the primary key.  None of the
queries the repository sends is a limit, so the response holds at most
`defaultLimit` records: the first ones in the requested order. -/
def databases.listDocuments (queries : List Query) (w : World) :
    Except JSError (List RawDoc) × World :=
  match w.fault with
  | some e => (.error e, w.next (.listDocuments queries))
  | none =>
    (.ok ((queries.foldr Query.apply w.documents).take defaultLimit),
     w.next (.listDocuments queries))

/-- The SDK call `databases.getDocument(db, collection, id)`. -/
def databases.getDocument (id : String) (w : World) : Except JSError RawDoc × World :=
  match w.fault with
  | some e => (.error e, w.next (.getDocument id))
  | none =>
    match w.documents.find? (fun d => decide (d.id = id)) with
    | some d => (.ok d, w.next (.getDocument id))
    | none => (.error documentNotFound, w.next (.getDocument id))

/-- The record a `createDocument` call stores. -/
def RawDoc.ofPayload (id now : String) (data : Payload) : RawDoc :=
  { id := id, createdAt := now, userId := data.userId, title := data.title,
    categoryId := data.categoryId, store := data.store, uploadDate := none,
    expirationDate := data.expirationDate, notes := data.notes,
    imageUrl := data.imageUrl, imageFileId := data.imageFileId }

/-- The record an `updateDocument` call leaves: transmitted attributes replace
the stored ones, the others stay. -/
def RawDoc.patch (d : RawDoc) (data : Payload) : RawDoc :=
  { d with
    userId := data.userId.orElse (fun _ => d.userId)
    title := data.title.orElse (fun _ => d.title)
    categoryId := data.categoryId.orElse (fun _ => d.categoryId)
    store := data.store.orElse (fun _ => d.store)
    expirationDate := data.expirationDate.orElse (fun _ => d.expirationDate)
    notes := data.notes.orElse (fun _ => d.notes)
    imageUrl := data.imageUrl.orElse (fun _ => d.imageUrl)
    imageFileId := data.imageFileId.orElse (fun _ => d.imageFileId) }

/-- The SDK call `databases.createDocument(db, collection, id, data)`; the
backend refuses an id that is malformed or taken. -/
def databases.createDocument (id : String) (data : Payload) (w : World) :
    Except JSError RawDoc × World :=
  match w.fault with
  | some e => (.error e, w.next (.createDocument id data))
  | none =>
    if validId id = false then (.error invalidId, w.next (.createDocument id data))
    else if w.documents.any (fun d => decide (d.id = id)) then
      (.error documentAlreadyExists, w.next (.createDocument id data))
    else
      (.ok (RawDoc.ofPayload id w.now data),
       { w.next (.createDocument id data) with
         documents := w.documents ++ [RawDoc.ofPayload id w.now data] })

/-- The SDK call `databases.updateDocument(db, collection, id, data)`. -/
def databases.updateDocument (id : String) (data : Payload) (w : World) :
    Except JSError RawDoc × World :=
  match w.fault with
  | some e => (.error e, w.next (.updateDocument id data))
  | none =>
    match w.documents.find? (fun d => decide (d.id = id)) with
    | none => (.error documentNotFound, w.next (.updateDocument id data))
    | some d =>
      (.ok (d.patch data),
       { w.next (.updateDocument id data) with
         documents := w.documents.map (fun x => if x.id = id then x.patch data else x) })

/-- The SDK call `databases.deleteDocument(db, collection, id)`. -/
def databases.deleteDocument (id : String) (w : World) : Except JSError Unit × World :=
  match w.fault with
  | some e => (.error e, w.next (.deleteDocument id))
  | none =>
    if w.documents.any (fun d => decide (d.id = id)) then
      (.ok (),
       { w.next (.deleteDocument id) with
         documents := w.documents.filter (fun d => decide (d.id ≠ id)) })
    else (.error documentNotFound, w.next (.deleteDocument id))

/-- The value of `info?.size` after `FileSystem.getInfoAsync(uri, { size: true })`. -/
def FileSystem.getInfoAsync (uri : String) (w : World) : Except JSError (Option Nat) × World :=
  match w.fault with
  | some e => (.error e, w.next (.getInfoAsync uri))
  | none => (.ok (w.localFiles.lookup uri), w.next (.getInfoAsync uri))

/-- The SDK call `storage.createFile(bucket, id, file)`; resolves to the stored
file, whose `id` is the `$id` of the response.  The backend refuses an id that
is malformed or taken. -/
def storage.createFile (bucket id : String) (file : FileInput) (w : World) :
    Except JSError StoredFile × World :=
  match w.fault with
  | some e => (.error e, w.next (.createFile bucket id file))
  | none =>
    if validId id = false then (.error invalidId, w.next (.createFile bucket id file))
    else if w.files.any (fun f => decide (f.id = id)) then
      (.error fileAlreadyExists, w.next (.createFile bucket id file))
    else
      (.ok ⟨id, file⟩, { w.next (.createFile bucket id file) with files := w.files ++ [⟨id, file⟩] })

/-! ## `services/api.js` -/

/-- `mapDocument` of `services/api.js`. -/
def mapDocument (doc : RawDoc) : Document :=
  { id := doc.id
    title := doc.title
    categoryId := doc.categoryId
    categoryName :=
      jsOr ((STATIC_CATEGORIES.find? (fun c => decide (some c.id = doc.categoryId))).map
        (fun c => c.name)) "Uncategorized"
    store := doc.store
    uploadDate := jsOr doc.uploadDate doc.createdAt
    expirationDate := doc.expirationDate
    notes := doc.notes
    imageUrl := jsOrNull doc.imageUrl }

/-- The view URL built in `uploadImageIfNeeded` from the id of the uploaded
file. -/
def viewUrl (fileId : String) : String :=
  APPWRITE_ENDPOINT ++ "/storage/buckets/" ++ APPWRITE_BUCKET_ID ++ "/files/" ++ fileId
    ++ "/view?project=" ++ APPWRITE_PROJECT_ID

/-- The `file` object built in `uploadImageIfNeeded` from the asset and from
`info?.size`. -/
def fileOf (imageAsset : ImageAsset) (size : Option Nat) : FileInput :=
  { uri := imageAsset.uri
    name := jsOr imageAsset.fileName (jsOr imageAsset.filename "document.jpg")
    type := jsOr imageAsset.mimeType (jsOr imageAsset.type "image/jpeg")
    size := size.getD 0 }

/-- `uploadImageIfNeeded` of `services/api.js`. -/
def uploadImageIfNeeded (imageAsset : Option ImageAsset) (w : World) :
    Except JSError (Option ImageMeta) × World :=
  match imageAsset with
  | none => (.ok none, w)
  | some a =>
    match FileSystem.getInfoAsync a.uri w with
    | (.error e, w1) => (.error e, w1)
    | (.ok info, w1) =>
      match storage.createFile APPWRITE_BUCKET_ID (ID.unique w1).1 (fileOf a info)
          (ID.unique w1).2 with
      | (.error e, w2) => (.error e, w2)
      | (.ok uploaded, w2) =>
        (.ok (some { fileId := uploaded.id, imageUrl := viewUrl uploaded.id }), w2)

/-- The error thrown by the ownership check. -/
def accessDenied : JSError := ⟨"Access denied"⟩

/-- `documentsAPI.getAll` of `services/api.js`. -/
def documentsAPI.getAll (w : World) : Except JSError (List Document) × World :=
  match account.get w with
  | (.error e, w1) => (.error e, w1)
  | (.ok user, w1) =>
    match databases.listDocuments [Query.equal .userId user.id, Query.orderDesc .createdAt] w1 with
    | (.error e, w2) => (.error e, w2)
    | (.ok documents, w2) => (.ok (documents.map mapDocument), w2)

/-- `documentsAPI.getById` of `services/api.js`. -/
def documentsAPI.getById (id : String) (w : World) : Except JSError Document × World :=
  match account.get w with
  | (.error e, w1) => (.error e, w1)
  | (.ok user, w1) =>
    match databases.getDocument id w1 with
    | (.error e, w2) => (.error e, w2)
    | (.ok doc, w2) =>
      if doc.userId ≠ some user.id then (.error accessDenied, w2)
      else (.ok (mapDocument doc), w2)

/-- The attribute object `documentsAPI.create` passes to `createDocument`. -/
def createPayload (user : User) (data : DocData) (imageMeta : Option ImageMeta) : Payload :=
  { userId := some user.id
    title := data.title
    categoryId := data.categoryId
    store := some (jsOr data.store "")
    expirationDate := some (jsOr data.expirationDate "")
    notes := some (jsOr data.notes "")
    imageUrl := some (jsOr (imageMeta.map (fun m => m.imageUrl)) "")
    imageFileId := some (jsOr (imageMeta.map (fun m => m.fileId)) "") }

/-- The first half of `documentsAPI.create`: `imageMeta` stays `null` unless
`data.image` is truthy, in which case it is the outcome of the upload. -/
def createImageMeta (data : DocData) (w : World) : Except JSError (Option ImageMeta) × World :=
  if data.image.isSome then uploadImageIfNeeded data.image w else (.ok none, w)

/-- `documentsAPI.create` of `services/api.js`. -/
def documentsAPI.create (data : DocData) (w : World) : Except JSError Document × World :=
  match account.get w with
  | (.error e, w1) => (.error e, w1)
  | (.ok user, w1) =>
    match createImageMeta data w1 with
    | (.error e, w2) => (.error e, w2)
    | (.ok imageMeta, w2) =>
      match databases.createDocument (ID.unique w2).1 (createPayload user data imageMeta)
          (ID.unique w2).2 with
      | (.error e, w3) => (.error e, w3)
      | (.ok created, w3) => (.ok (mapDocument created), w3)

/-- The `imageFields` object of `documentsAPI.update`, as the pair of its
optional `imageUrl` and `imageFileId` keys. -/
def imageFields (data : DocData) (w : World) :
    Except JSError (Option String × Option String) × World :=
  if data.imageChanged then
    if data.image.isSome then
      match uploadImageIfNeeded data.image w with
      | (.error e, w1) => (.error e, w1)
      | (.ok imageMeta, w1) =>
        (.ok (some (jsOr (imageMeta.map (fun m => m.imageUrl)) ""),
              some (jsOr (imageMeta.map (fun m => m.fileId)) "")), w1)
    else if data.deleteImage then (.ok (some "", some ""), w)
    else (.ok (none, none), w)
  else (.ok (none, none), w)

/-- The attribute object `documentsAPI.update` passes to `updateDocument`:
the five scalar fields followed by the spread `...imageFields`. -/
def updatePayload (data : DocData) (fields : Option String × Option String) : Payload :=
  { userId := none
    title := data.title
    categoryId := data.categoryId
    store := some (jsOr data.store "")
    expirationDate := some (jsOr data.expirationDate "")
    notes := some (jsOr data.notes "")
    imageUrl := fields.1
    imageFileId := fields.2 }

/-- `documentsAPI.update` of `services/api.js`. -/
def documentsAPI.update (id : String) (data : DocData) (w : World) :
    Except JSError Document × World :=
  match account.get w with
  | (.error e, w1) => (.error e, w1)
  | (.ok user, w1) =>
    match databases.getDocument id w1 with
    | (.error e, w2) => (.error e, w2)
    | (.ok existingDoc, w2) =>
      if existingDoc.userId ≠ some user.id then (.error accessDenied, w2)
      else
        match imageFields data w2 with
        | (.error e, w3) => (.error e, w3)
        | (.ok fields, w3) =>
          match databases.updateDocument id (updatePayload data fields) w3 with
          | (.error e, w4) => (.error e, w4)
          | (.ok updated, w4) => (.ok (mapDocument updated), w4)

/-- `documentsAPI.delete` of `services/api.js`. -/
def documentsAPI.delete (id : String) (w : World) : Except JSError Unit × World :=
  match account.get w with
  | (.error e, w1) => (.error e, w1)
  | (.ok user, w1) =>
    match databases.getDocument id w1 with
    | (.error e, w2) => (.error e, w2)
    | (.ok existingDoc, w2) =>
      if existingDoc.userId ≠ some user.id then (.error accessDenied, w2)
      else
        match databases.deleteDocument id w2 with
        | (.error e, w3) => (.error e, w3)
        | (.ok _, w3) => (.ok (), w3)

/-- The value `authAPI.login` resolves to (inside `{ data: { token } }`). -/
def sessionToken : String := "appwrite-session"

/-- `authAPI.login` of `services/api.js`.  `toLowerCase` is the method of the
JavaScript runtime; `msg` is `String(err?.message || '').toLowerCase()`. -/
def authAPI.login (toLowerCase : String → String) (email password : String) (w : World) :
    Except JSError String × World :=
  match account.createEmailPasswordSession email password w with
  | (.ok _, w1) => (.ok sessionToken, w1)
  | (.error err, w1) =>
    if includes (toLowerCase (jsOr (some err.message) "")) "rate limit" then
      match account.createEmailPasswordSession email password (w1.pause 1500) with
      | (.ok _, w2) => (.ok sessionToken, w2)
      | (.error err2, w2) => (.error err2, w2)
    else if includes (toLowerCase (jsOr (some err.message) "")) "session is active" then
      (.ok sessionToken, w1)
    else (.error err, w1)

/-- The `catch (err)` block that `authAPI.register` and `authAPI.login` share
word for word, for the caught error `err` in the world `w`. -/
def catchAuthError (toLowerCase : String → String) (email password : String) (err : JSError)
    (w : World) : Except JSError String × World :=
  if includes (toLowerCase (jsOr (some err.message) "")) "rate limit" then
    match account.createEmailPasswordSession email password (w.pause 1500) with
    | (.ok _, w2) => (.ok sessionToken, w2)
    | (.error err2, w2) => (.error err2, w2)
  else if includes (toLowerCase (jsOr (some err.message) "")) "session is active" then
    (.ok sessionToken, w)
  else (.error err, w)

/-- `authAPI.register` of `services/api.js`: `account.create` and
`account.createEmailPasswordSession` run inside one `try`, so the `catch` block
receives the error of whichever of the two throws. -/
def authAPI.register (toLowerCase : String → String) (name email password : String)
    (w : World) : Except JSError String × World :=
  match account.create (ID.unique w).1 email password name (ID.unique w).2 with
  | (.error err, w1) => catchAuthError toLowerCase email password err w1
  | (.ok _, w1) =>
    match account.createEmailPasswordSession email password w1 with
    | (.ok _, w2) => (.ok sessionToken, w2)
    | (.error err, w2) => catchAuthError toLowerCase email password err w2

/-- `categoriesAPI.getAll` of `services/api.js`: it resolves to
`STATIC_CATEGORIES` and makes no call. -/
def categoriesAPI.getAll (w : World) : Except JSError (List Category) × World :=
  (.ok STATIC_CATEGORIES, w)

/-! ## `App.js` -/

/-- The state variables of `App`. -/
structure AppState where
  isLoading : Bool
  userToken : Option String
deriving DecidableEq, Repr

/-- `authContext.signOut` of `App.js`: the outcome of `deleteSession('current')`
is dropped by the empty `catch`; then the stored token is removed and
`setUserToken(null)` runs.  The value is the outcome, the state of `App` and
the world. -/
def authContext.signOut (st : AppState) (w : World) :
    Except JSError Unit × AppState × World :=
  match AsyncStorage.removeItem "userToken" (account.deleteSession "current" w).2 with
  | (.error e, w2) => (.error e, st, w2)
  | (.ok _, w2) => (.ok (), { st with userToken := none }, w2)

/-! ## `screens/DashboardScreen.js` -/

/-- The error raised by reading a property of `undefined` or `null`. -/
def typeError : JSError := ⟨"Cannot read property 'toLowerCase' of undefined"⟩

/-- The callback of the text filter in `filterDocuments`, for the lower-cased
`query`.  `toLowerCase` is the method of the JavaScript runtime.
`doc.title.toLowerCase()` throws when the title is missing, while
`doc.store?.…` and `doc.notes?.…` are `undefined`, hence falsy, when the field
is missing. -/
def searchCallback (toLowerCase : String → String) (query : String) (doc : Document) :
    Except JSError Bool :=
  match doc.title with
  | none => .error typeError
  | some title =>
    .ok (includes (toLowerCase title) query ||
         (match doc.store with
          | some store => includes (toLowerCase store) query
          | none => false) ||
         (match doc.notes with
          | some notes => includes (toLowerCase notes) query
          | none => false))

/-- The method call `xs.filter(callback)` for a callback that can throw:
elements are visited from the left, and the first error ends the call. -/
def filterArray (callback : Document → Except JSError Bool) :
    List Document → Except JSError (List Document)
  | [] => .ok []
  | doc :: rest =>
    match callback doc with
    | .error e => .error e
    | .ok keep =>
      match filterArray callback rest with
      | .error e => .error e
      | .ok kept => .ok (if keep then doc :: kept else kept)

/-- `filterDocuments` of `screens/DashboardScreen.js`, as a function of the
state variables it reads (`documents`, `searchQuery`, `selectedCategory`); the
value is the array it hands to `setFilteredDocuments`, or the error it throws
before reaching that call. -/
def filterDocuments (toLowerCase : String → String) (documents : List Document)
    (searchQuery : String) (selectedCategory : Option String) :
    Except JSError (List Document) :=
  match (if searchQuery ≠ "" then
           filterArray (searchCallback toLowerCase (toLowerCase searchQuery)) documents
         else .ok documents) with
  | .error e => .error e
  | .ok filtered =>
    if truthy selectedCategory then
      .ok (filtered.filter (fun doc => decide (doc.categoryId = selectedCategory)))
    else .ok filtered

/-! ### Arrays by reference

JavaScript arrays are objects: the state variable `documents` holds a reference
to an array, and `[...documents]` and `xs.filter(f)` each build a new array.
The following version of `filterDocuments` keeps track of that. -/

/-- The arrays of documents on the JavaScript heap; the address of an array is
its position.  Addresses are never reused. -/
structure Heap where
  arrays : List (List Document)
deriving DecidableEq, Repr

/-- The array stored at an address. -/
def Heap.read (h : Heap) (a : Nat) : List Document := h.arrays.getD a []

/-- Store a newly built array; gives its address and the extended heap. -/
def Heap.alloc (h : Heap) (xs : List Document) : Nat × Heap :=
  (h.arrays.length, ⟨h.arrays ++ [xs]⟩)

/-- The state variables of `DashboardScreen` that `filterDocuments` reads or
sets; the two arrays are held by reference. -/
structure DashboardState where
  documents : Nat
  filteredDocuments : Nat
  searchQuery : String
  selectedCategory : Option String
deriving DecidableEq, Repr

/-- `filterDocuments` of `screens/DashboardScreen.js` on the heap: the copy
`[...documents]` and every `.filter(...)` allocate an array, and
`setFilteredDocuments(filtered)` stores the address of the last one.  The value
is the new state (or the error thrown before the state is set) and the heap the
run leaves. -/
def filterDocumentsByRef (toLowerCase : String → String) (h : Heap) (st : DashboardState) :
    Except JSError DashboardState × Heap :=
  let copy := h.alloc (h.read st.documents)
  match (if st.searchQuery ≠ "" then
           match filterArray (searchCallback toLowerCase (toLowerCase st.searchQuery))
               (copy.2.read copy.1) with
           | .error e => (.error e, copy.2)
           | .ok kept => (.ok (copy.2.alloc kept).1, (copy.2.alloc kept).2)
         else (.ok copy.1, copy.2) : Except JSError Nat × Heap) with
  | (.error e, h1) => (.error e, h1)
  | (.ok filtered, h1) =>
    if truthy st.selectedCategory then
      (.ok { st with
             filteredDocuments :=
               (h1.alloc ((h1.read filtered).filter
                 (fun doc => decide (doc.categoryId = st.selectedCategory)))).1 },
       (h1.alloc ((h1.read filtered).filter
         (fun doc => decide (doc.categoryId = st.selectedCategory)))).2)
    else (.ok { st with filteredDocuments := filtered }, h1)

/-- Lower-casing of the letters `A`–`Z`; agrees with the runtime's
`toLowerCase` on ASCII strings.  Used for concrete examples only. -/
def lowerASCII (s : String) : String := ⟨s.toList.map Char.toLower⟩

/-! ### The predicates of the specification -/

/-- The text predicate in the words of the specification: the lower-cased
title, store or notes contains the lower-cased text; a missing field does not
match. -/
def containsText (toLowerCase : String → String) (text : String) (d : Document) : Bool :=
  (d.title.any fun t => includes (toLowerCase t) (toLowerCase text)) ||
  (d.store.any fun t => includes (toLowerCase t) (toLowerCase text)) ||
  (d.notes.any fun t => includes (toLowerCase t) (toLowerCase text))

/-- The category predicate in the words of the specification: `categoryId` is
exactly `c`. -/
def inCategory (c : String) (d : Document) : Bool := decide (d.categoryId = some c)

/-! ## `screens/DocumentUploadScreen.js` -/

/-- The state variables of `DocumentUploadScreen`. -/
structure UploadForm where
  title : String
  categoryId : String
  store : String
  expirationDate : String
  notes : String
  image : Option ImageAsset
  categories : List Category
  loading : Bool
  error : String
  success : String
deriving DecidableEq, Repr

/-- The draft `handleSubmit` passes to `documentsAPI.create`. -/
def UploadForm.draft (form : UploadForm) : DocData :=
  { title := some form.title
    categoryId := some (jsOr (some form.categoryId) "")
    store := some form.store
    expirationDate := some form.expirationDate
    notes := some form.notes
    image := form.image
    imageChanged := false
    deleteImage := false }

/-- `handleSubmit` of `screens/DocumentUploadScreen.js`: the form state and the
world it leaves.  The delayed `navigation.goBack()` after a success is not part
of the model; an error carries no `response`, so the message shown is
`err.message || 'Failed to upload document'`. -/
def handleSubmit (form : UploadForm) (w : World) : UploadForm × World :=
  if form.title = "" then ({ form with error := "Title is required" }, w)
  else if form.categories.length > 0 ∧ form.categoryId = "" then
    ({ form with error := "Category is required" }, w)
  else
    match documentsAPI.create form.draft w with
    | (.ok _, w1) =>
      ({ form with
         error := "", success := "Document uploaded successfully!", title := "", store := "",
         expirationDate := "", notes := "", image := none, loading := false }, w1)
    | (.error err, w1) =>
      ({ form with
         error := jsOr (some err.message) "Failed to upload document", loading := false }, w1)

/-! ## `screens/DocumentDetailScreen.js` -/

/-- The state variables of `DocumentDetailScreen` that `handleSave` puts into
the patch. -/
structure DetailForm where
  title : String
  categoryId : String
  store : String
  expirationDate : String
  notes : String
  image : Option ImageAsset
  imageChanged : Bool
deriving DecidableEq, Repr

/-- The patch `handleSave` passes to `documentsAPI.update`; `deleteImage` is
`imageChanged && !image`. -/
def DetailForm.patch (form : DetailForm) : DocData :=
  { title := some form.title
    categoryId := some form.categoryId
    store := some form.store
    expirationDate := some form.expirationDate
    notes := some form.notes
    image := form.image
    imageChanged := form.imageChanged
    deleteImage := form.imageChanged && form.image.isNone }

/-! ## Loading the dashboard -/

/-- The values of the `sortBy` state of `DashboardScreen`. -/
inductive SortBy where
  | uploadDate | title | expirationDate
deriving DecidableEq, Repr

/-- The values of the `sortOrder` state of `DashboardScreen`. -/
inductive SortOrder where
  | ASC | DESC
deriving DecidableEq, Repr

/-- The state variables `loadData` of `DashboardScreen` sets. -/
structure DashboardData where
  documents : List Document
  categories : List Category
  filteredDocuments : List Document
  loading : Bool
  refreshing : Bool
deriving DecidableEq, Repr

/-- `loadData` of `screens/DashboardScreen.js`.  It calls
`documentsAPI.getAll({ sortBy, sortOrder })`, but `getAll` is declared as
`async () => …`, without a parameter, so the argument never reaches it;
`categoriesAPI.getAll()` resolves to `STATIC_CATEGORIES` without a remote
call.  An error is only written to the console. -/
def loadData (_sortBy : SortBy) (_sortOrder : SortOrder) (st : DashboardData) (w : World) :
    DashboardData × World :=
  match documentsAPI.getAll w with
  | (.ok documents, w1) =>
    ({ documents := documents, categories := STATIC_CATEGORIES,
       filteredDocuments := documents, loading := false, refreshing := false }, w1)
  | (.error _, w1) => ({ st with loading := false, refreshing := false }, w1)

/-! ## The predicates of the data model -/

/-- The attachment invariant of the data model: `imageUrl` and `imageFileId`
are both populated (present and non-empty) or both not. -/
def attachmentConsistent (r : RawDoc) : Bool := truthy r.imageUrl == truthy r.imageFileId

/-- The patch `{ title: T }`. -/
def titleOnly (T : String) : DocData :=
  { title := some T, categoryId := none, store := none, expirationDate := none, notes := none,
    image := none, imageChanged := false, deleteImage := false }

/-! ## Sample data -/

def alice : User := { id := "u-alice", name := "Alice", email := "alice@example.org", createdAt := "2024-01-01" }
def bob : User := { id := "u-bob", name := "Bob", email := "bob@example.org", createdAt := "2024-01-02" }

/-- A record owned by Alice. -/
def fridge : RawDoc :=
  { id := "d1", createdAt := "2024-02-01", userId := some "u-alice", title := some "Fridge warranty",
    categoryId := some "appliances", store := some "Mega Store", uploadDate := none,
    expirationDate := some "2025-01-01", notes := some "", imageUrl := some "",
    imageFileId := some "" }

/-- A world holding Alice's record, in which `user` is signed in. -/
def worldOf (user : User) : World :=
  { session := some user, documents := [fridge], files := [], localFiles := [("file:///a.jpg", 7)],
    ids := ["n1", "n2"], now := "2024-03-01", faults := [], log := [] }

/-- A draft without an image. -/
def toaster : DocData :=
  { title := some "Toaster receipt", categoryId := some "appliances", store := none,
    expirationDate := none, notes := some "two slices", image := none, imageChanged := false,
    deleteImage := false }

/-- The record `documentsAPI.create toaster` stores for Alice in `worldOf alice`. -/
def toasterRecord : RawDoc :=
  { id := "n1", createdAt := "2024-03-01", userId := some "u-alice",
    title := some "Toaster receipt", categoryId := some "appliances", store := some "",
    uploadDate := none, expirationDate := some "", notes := some "two slices",
    imageUrl := some "", imageFileId := some "" }

/-- Three documents as the dashboard holds them. -/
def milkDocs : List Document :=
  [ { id := "a", title := some "Milk receipt", categoryId := some "documents",
      categoryName := "Documents", store := none, uploadDate := "2024-01-03",
      expirationDate := none, notes := none, imageUrl := none },
    { id := "b", title := some "Fridge warranty", categoryId := some "appliances",
      categoryName := "Appliances", store := some "MILKY WAY", uploadDate := "2024-01-02",
      expirationDate := some "2025-01-01", notes := some "", imageUrl := none },
    { id := "c", title := some "Sofa", categoryId := some "furniture",
      categoryName := "Furniture", store := some "Home", uploadDate := "2024-01-01",
      expirationDate := none, notes := some "no dairy here", imageUrl := none } ]

/-- A picked photo without any metadata. -/
def photo : ImageAsset :=
  { uri := "file:///a.jpg", fileName := none, filename := none, mimeType := none, type := none }

/-- A draft with an empty title, an empty category and a photo. -/
def untitled : DocData :=
  { title := some "", categoryId := some "", store := none, expirationDate := none,
    notes := none, image := some photo, imageChanged := false, deleteImage := false }

/-- The upload form as it is when the screen opens, before the categories are
loaded, and once they are loaded but with the category cleared. -/
def blankForm (categories : List Category) : UploadForm :=
  { title := "", categoryId := "", store := "", expirationDate := "", notes := "",
    image := some photo, categories := categories, loading := false, error := "",
    success := "" }

/-- A record owned by Alice that has an attachment, created after `fridge`. -/
def lamp : RawDoc :=
  { id := "d2", createdAt := "2024-02-05", userId := some "u-alice", title := some "Zebra lamp",
    categoryId := some "furniture", store := some "Home", uploadDate := none,
    expirationDate := some "2026-06-30", notes := some "bedroom",
    imageUrl := some (viewUrl "f9"), imageFileId := some "f9" }

/-- Alice signed in, with her two records in the collection. -/
def twoDocs : World :=
  { session := some alice, documents := [fridge, lamp], files := [],
    localFiles := [("file:///a.jpg", 7)], ids := ["n1", "n2"], now := "2024-03-01", faults := [],
    log := [] }

/-- Nobody is signed in; Alice is registered; the first call to come is
answered with a rate-limit error. -/
def throttled : World :=
  { session := none, documents := [], files := [], localFiles := [], ids := [],
    now := "2024-03-01",
    faults := [some ⟨"Rate limit for the current endpoint has been exceeded."⟩], log := [],
    accounts := [{ email := "alice@example.org", password := "correct horse", user := alice }] }

/-- Nobody is signed in; Alice is registered; the first call to come is
answered with a rate-limit error and `ID.unique()` is about to return `u9`. -/
def throttledSignup : World := { throttled with ids := ["u9"] }

/-- Nobody is signed in and nobody is registered. -/
def freshBackend : World :=
  { session := none, documents := [], files := [], localFiles := [], ids := ["u9"],
    now := "2024-03-01", faults := [], log := [] }

/-- Alice signed in on a device that holds her token; her two records are in
the collection and the file of `lamp` is in the bucket. -/
def signedIn : World :=
  { twoDocs with
    files := [⟨"f9", { uri := "file:///lamp.jpg", name := "document.jpg", type := "image/jpeg",
                       size := 9 }⟩],
    storage := [("theme", "dark"), ("userToken", "appwrite-session")] }

/-- Twenty-six records of Alice, created at the same moment; the id of the
n-th one is `x` repeated n times. -/
def manyDocs : List RawDoc :=
  (List.range 26).map fun n =>
    { fridge with id := ⟨List.replicate (n + 1) 'x'⟩, title := some "Receipt" }

/-- Alice signed in, with her twenty-six records in the collection. -/
def manyDocsWorld : World := { worldOf alice with documents := manyDocs }

/-! ## What the primitives do to the world -/

theorem account_get_snd (w : World) : (account.get w).2 = w.next .accountGet := by
  unfold account.get
  split
  · rfl
  · split <;> rfl

theorem getDocument_snd (id : String) (w : World) :
    (databases.getDocument id w).2 = w.next (.getDocument id) := by
  unfold databases.getDocument
  split
  · rfl
  · split <;> rfl

theorem listDocuments_snd (queries : List Query) (w : World) :
    (databases.listDocuments queries w).2 = w.next (.listDocuments queries) := by
  unfold databases.listDocuments
  split <;> rfl

theorem getInfoAsync_snd (uri : String) (w : World) :
    (FileSystem.getInfoAsync uri w).2 = w.next (.getInfoAsync uri) := by
  unfold FileSystem.getInfoAsync
  split <;> rfl

theorem getDocument_ok (id : String) (w w1 : World) (r : RawDoc)
    (h : databases.getDocument id w = (.ok r, w1)) :
    w.documents.find? (fun d => decide (d.id = id)) = some r := by
  unfold databases.getDocument at h
  split at h
  · simp at h
  · split at h
    · rename_i d hd
      simp only [Prod.mk.injEq, Except.ok.injEq] at h
      rw [hd, h.1]
    · simp at h

theorem unique_snd_fields (w : World) :
    (ID.unique w).2.documents = w.documents ∧ (ID.unique w).2.files = w.files ∧
    (ID.unique w).2.now = w.now ∧ (ID.unique w).2.log = w.log ∧
    (ID.unique w).2.faults = w.faults ∧ (ID.unique w).2.session = w.session := by
  unfold ID.unique
  split <;> simp

theorem next_log (w : World) (c : Call) : (w.next c).log = w.log ++ [c] := rfl

theorem unique_log (w : World) : (ID.unique w).2.log = w.log := (unique_snd_fields w).2.2.2.1

theorem createFile_snd_fields (bucket id : String) (file : FileInput) (w : World) :
    (storage.createFile bucket id file w).2.documents = w.documents ∧
    (storage.createFile bucket id file w).2.now = w.now ∧
    (storage.createFile bucket id file w).2.session = w.session ∧
    (storage.createFile bucket id file w).2.log = w.log ++ [.createFile bucket id file] := by
  unfold storage.createFile
  split
  · simp [World.next]
  · split
    · simp [World.next]
    · split <;> simp [World.next]

theorem uploadImageIfNeeded_snd_fields (imageAsset : Option ImageAsset) (w : World) :
    (uploadImageIfNeeded imageAsset w).2.documents = w.documents ∧
    (uploadImageIfNeeded imageAsset w).2.now = w.now ∧
    (uploadImageIfNeeded imageAsset w).2.session = w.session := by
  unfold uploadImageIfNeeded
  cases imageAsset with
  | none => simp
  | some a =>
    simp only
    rcases hg : FileSystem.getInfoAsync a.uri w with ⟨r, w1⟩
    have e1 : w1 = w.next (.getInfoAsync a.uri) := by rw [← getInfoAsync_snd, hg]
    cases r with
    | error e => simp [e1, World.next]
    | ok info =>
      simp only
      have hu := unique_snd_fields w1
      rcases hf : storage.createFile APPWRITE_BUCKET_ID (ID.unique w1).1 (fileOf a info)
          (ID.unique w1).2 with ⟨r2, w2⟩
      have hs := createFile_snd_fields APPWRITE_BUCKET_ID (ID.unique w1).1 (fileOf a info)
          (ID.unique w1).2
      rw [hf] at hs
      simp only at hs
      have hd : w2.documents = w.documents := by rw [hs.1, hu.1, e1]; rfl
      have hn : w2.now = w.now := by rw [hs.2.1, hu.2.2.1, e1]; rfl
      have hse : w2.session = w.session := by rw [hs.2.2.1, hu.2.2.2.2.2, e1]; rfl
      cases r2 <;> exact ⟨hd, hn, hse⟩

/-- The three ways an upload can go: `getInfoAsync` fails; `createFile` fails
(or refuses the id); the file is stored under the id `ID.unique()` gave, which
is then well-formed. -/
theorem uploadImageIfNeeded_cases (a : ImageAsset) (w : World) :
    (∃ e, uploadImageIfNeeded (some a) w = (.error e, w.next (.getInfoAsync a.uri))) ∨
    (∃ e, uploadImageIfNeeded (some a) w =
      (.error e,
       (ID.unique (w.next (.getInfoAsync a.uri))).2.next
         (.createFile APPWRITE_BUCKET_ID (ID.unique (w.next (.getInfoAsync a.uri))).1
           (fileOf a (w.localFiles.lookup a.uri))))) ∨
    (validId (ID.unique (w.next (.getInfoAsync a.uri))).1 = true ∧
     uploadImageIfNeeded (some a) w =
      (.ok (some { fileId := (ID.unique (w.next (.getInfoAsync a.uri))).1
                   imageUrl := viewUrl (ID.unique (w.next (.getInfoAsync a.uri))).1 }),
       { (ID.unique (w.next (.getInfoAsync a.uri))).2.next
           (.createFile APPWRITE_BUCKET_ID (ID.unique (w.next (.getInfoAsync a.uri))).1
             (fileOf a (w.localFiles.lookup a.uri))) with
         files := w.files ++ [⟨(ID.unique (w.next (.getInfoAsync a.uri))).1,
                               fileOf a (w.localFiles.lookup a.uri)⟩] })) := by
  have hu := unique_snd_fields (w.next (.getInfoAsync a.uri))
  unfold uploadImageIfNeeded FileSystem.getInfoAsync storage.createFile
  cases hf : w.fault with
  | some e => left; exact ⟨e, rfl⟩
  | none =>
    right
    simp only
    have hfault : (ID.unique (w.next (.getInfoAsync a.uri))).2.fault
        = (w.next (.getInfoAsync a.uri)).fault := by
      simp [World.fault, hu.2.2.2.2.1]
    cases hf2 : (ID.unique (w.next (.getInfoAsync a.uri))).2.fault with
    | some e => left; exact ⟨e, rfl⟩
    | none =>
      simp only
      have hfiles : (ID.unique (w.next (.getInfoAsync a.uri))).2.files = w.files := by
        rw [hu.2.1]; rfl
      by_cases hv : validId (ID.unique (w.next (.getInfoAsync a.uri))).1 = false
      · left
        exact ⟨invalidId, by rw [if_pos hv]⟩
      · rw [if_neg hv]
        by_cases hany : (ID.unique (w.next (.getInfoAsync a.uri))).2.files.any
            (fun f => decide (f.id = (ID.unique (w.next (.getInfoAsync a.uri))).1)) = true
        · left
          exact ⟨fileAlreadyExists, by rw [if_pos hany]⟩
        · right
          refine ⟨by simpa using hv, ?_⟩
          rw [if_neg hany, hfiles]

theorem createImageMeta_snd_fields (data : DocData) (w : World) :
    (createImageMeta data w).2.documents = w.documents ∧
    (createImageMeta data w).2.now = w.now ∧
    (createImageMeta data w).2.session = w.session := by
  unfold createImageMeta
  split
  · exact uploadImageIfNeeded_snd_fields data.image w
  · simp

theorem createDocument_ok (id : String) (data : Payload) (w w1 : World) (r : RawDoc)
    (h : databases.createDocument id data w = (.ok r, w1)) :
    r = RawDoc.ofPayload id w.now data ∧ w1.documents = w.documents ++ [r] ∧
    w1.files = w.files ∧ (∀ x ∈ w.documents, x.id ≠ id) := by
  unfold databases.createDocument at h
  split at h
  · simp at h
  · split at h
    · simp at h
    · split at h
      · simp at h
      · rename_i hany
        simp only [Prod.mk.injEq, Except.ok.injEq] at h
        obtain ⟨h1, h2⟩ := h
        subst h2
        subst h1
        refine ⟨rfl, rfl, rfl, ?_⟩
        intro x hx hid
        exact hany (List.any_eq_true.mpr ⟨x, hx, by simp [hid]⟩)

theorem createDocument_snd_fields (id : String) (data : Payload) (w : World) :
    (databases.createDocument id data w).2.log = w.log ++ [.createDocument id data] ∧
    (databases.createDocument id data w).2.files = w.files := by
  unfold databases.createDocument
  split
  · simp [World.next]
  · split
    · simp [World.next]
    · split <;> simp [World.next]

theorem create_ok (data : DocData) (w w1 w3 : World) (u : User) (d : Document)
    (hu : account.get w = (.ok u, w1)) (hc : documentsAPI.create data w = (.ok d, w3)) :
    ∃ imageMeta w2, createImageMeta data w1 = (.ok imageMeta, w2) ∧
      d = mapDocument
        (RawDoc.ofPayload (ID.unique w2).1 w.now (createPayload u data imageMeta)) ∧
      w3.documents = w.documents ++
        [RawDoc.ofPayload (ID.unique w2).1 w.now (createPayload u data imageMeta)] ∧
      (∀ x ∈ w.documents, x.id ≠ (ID.unique w2).1) := by
  unfold documentsAPI.create at hc
  simp only [hu] at hc
  have e1 : w1 = w.next .accountGet := by rw [← account_get_snd, hu]
  rcases hm : createImageMeta data w1 with ⟨m, w2⟩
  have hf := createImageMeta_snd_fields data w1
  rw [hm] at hf hc
  simp only at hf
  cases m with
  | error e => simp at hc
  | ok imageMeta =>
    simp only at hc
    rcases hd : databases.createDocument (ID.unique w2).1 (createPayload u data imageMeta)
        (ID.unique w2).2 with ⟨c, w4⟩
    rw [hd] at hc
    cases c with
    | error e => simp at hc
    | ok created =>
      simp only [Prod.mk.injEq, Except.ok.injEq] at hc
      obtain ⟨hr, hdocs, -, hfresh⟩ := createDocument_ok _ _ _ _ _ hd
      have hun := unique_snd_fields w2
      have hdoc2 : (ID.unique w2).2.documents = w.documents := by
        rw [hun.1, hf.1, e1]; rfl
      have hnow2 : (ID.unique w2).2.now = w.now := by
        rw [hun.2.2.1, hf.2.1, e1]; rfl
      rw [hnow2] at hr
      rw [hdoc2] at hdocs hfresh
      refine ⟨imageMeta, w2, rfl, ?_, ?_, hfresh⟩
      · rw [← hc.1, hr]
      · rw [← hc.2, hdocs, hr]

theorem listDocuments_ok (queries : List Query) (w w1 : World) (ds : List RawDoc)
    (h : databases.listDocuments queries w = (.ok ds, w1)) :
    ds = (queries.foldr Query.apply w.documents).take defaultLimit := by
  unfold databases.listDocuments at h
  split at h
  · simp at h
  · simp only [Prod.mk.injEq, Except.ok.injEq] at h
    exact h.1.symm

/-- The records `documentsAPI.getAll` asks for are, up to order, the stored
records whose `userId` is the given id. -/
theorem getAll_query_perm (uid : String) (docs : List RawDoc) :
    ([Query.equal .userId uid, Query.orderDesc .createdAt].foldr Query.apply docs).Perm
      (docs.filter (fun d => decide (d.userId = some uid))) := by
  simp only [List.foldr, Query.apply, RawDoc.attr]
  exact (List.Perm.filter _ (List.perm_insertionSort _ _))

/-! ## Ownership -/

/-- C1. When `account.get()` resolves to `u` and `getDocument(id)` resolves to
the stored record `r`, `documentsAPI.getById(id)` fails with the error
`Access denied` exactly when `r.userId` differs from `u.$id`, and resolves to
`mapDocument(r)` when they are equal. -/
theorem getById_access_denied_iff (id : String) (w w1 w2 : World) (u : User) (r : RawDoc)
    (hu : account.get w = (.ok u, w1)) (hr : databases.getDocument id w1 = (.ok r, w2)) :
    ((documentsAPI.getById id w).1 = .error ⟨"Access denied"⟩ ↔ r.userId ≠ some u.id) ∧
    (r.userId = some u.id → (documentsAPI.getById id w).1 = .ok (mapDocument r)) := by
  unfold documentsAPI.getById
  simp only [hu, hr]
  by_cases h : r.userId = some u.id
  · simp [h]
  · simp [h, accessDenied]

theorem getById_access_denied_iff_witness :
    ((documentsAPI.getById "d1" (worldOf bob)).1 = .error ⟨"Access denied"⟩ ↔
        fridge.userId ≠ some bob.id) ∧
    (fridge.userId = some bob.id →
        (documentsAPI.getById "d1" (worldOf bob)).1 = .ok (mapDocument fridge)) :=
  getById_access_denied_iff "d1" (worldOf bob) _ _ bob fridge rfl rfl

/-- C2. When the record stored under `id` belongs to somebody else,
`documentsAPI.update(id, data)` (whatever `data` is, an image included) and
`documentsAPI.delete(id)` both fail with `Access denied`; the collection and
the bucket are as before, and the only calls made are `account.get` and
`getDocument`: no `createFile`, `updateDocument` or `deleteDocument`. -/
theorem update_delete_access_denied (id : String) (data : DocData) (w w1 w2 : World)
    (u : User) (r : RawDoc)
    (hu : account.get w = (.ok u, w1)) (hr : databases.getDocument id w1 = (.ok r, w2))
    (hne : r.userId ≠ some u.id) :
    documentsAPI.update id data w = (.error ⟨"Access denied"⟩, w2) ∧
    documentsAPI.delete id w = (.error ⟨"Access denied"⟩, w2) ∧
    w2.documents = w.documents ∧ w2.files = w.files ∧
    w2.log = w.log ++ [Call.accountGet, Call.getDocument id] := by
  have e1 : w1 = w.next .accountGet := by rw [← account_get_snd, hu]
  have e2 : w2 = w1.next (.getDocument id) := by rw [← getDocument_snd, hr]
  refine ⟨?_, ?_, ?_, ?_, ?_⟩
  · unfold documentsAPI.update
    simp [hu, hr, hne, accessDenied]
  · unfold documentsAPI.delete
    simp [hu, hr, hne, accessDenied]
  · rw [e2, e1]; rfl
  · rw [e2, e1]; rfl
  · rw [e2, e1]; simp [World.next]

theorem update_delete_access_denied_witness :
    documentsAPI.update "d1"
        { title := some "Mine now", categoryId := some "documents", store := none,
          expirationDate := none, notes := none,
          image := some { uri := "file:///a.jpg", fileName := none, filename := none,
                          mimeType := none, type := none },
          imageChanged := true, deleteImage := false } (worldOf bob)
      = (.error ⟨"Access denied"⟩,
          { worldOf bob with log := [Call.accountGet, Call.getDocument "d1"] }) ∧
    documentsAPI.delete "d1" (worldOf bob)
      = (.error ⟨"Access denied"⟩,
          { worldOf bob with log := [Call.accountGet, Call.getDocument "d1"] }) ∧
    ({ worldOf bob with log := [Call.accountGet, Call.getDocument "d1"] } : World).documents
      = (worldOf bob).documents ∧
    ({ worldOf bob with log := [Call.accountGet, Call.getDocument "d1"] } : World).files
      = (worldOf bob).files ∧
    ({ worldOf bob with log := [Call.accountGet, Call.getDocument "d1"] } : World).log
      = (worldOf bob).log ++ [Call.accountGet, Call.getDocument "d1"] :=
  update_delete_access_denied "d1" _ (worldOf bob) _ _ bob fridge rfl rfl (by decide)

/-- The records `documentsAPI.getAll` asks for come newest first. -/
theorem getAll_query_sorted (uid : String) (docs : List RawDoc) :
    ([Query.equal .userId uid, Query.orderDesc .createdAt].foldr Query.apply docs).Pairwise
      (fun x y => y.createdAt.toList ≤ x.createdAt.toList) := by
  haveI : IsTotal RawDoc (fun x y => y.sortKey .createdAt ≤ x.sortKey .createdAt) :=
    ⟨fun x y => le_total (y.sortKey .createdAt) (x.sortKey .createdAt)⟩
  haveI : IsTrans RawDoc (fun x y => y.sortKey .createdAt ≤ x.sortKey .createdAt) :=
    ⟨fun x y z h1 h2 => le_trans h2 h1⟩
  have hs : (docs.insertionSort (fun x y => y.sortKey .createdAt ≤ x.sortKey .createdAt)).Pairwise
      (fun x y => y.sortKey .createdAt ≤ x.sortKey .createdAt) :=
    List.sorted_insertionSort _ docs
  simp only [List.foldr, Query.apply]
  exact List.Pairwise.sublist (List.filter_sublist _) hs

/-- C3, as the code has it.  When `account.get()` resolves to `u` and the
`listDocuments` call resolves to the records `ds`, `documentsAPI.getAll`
resolves to `ds` mapped by `mapDocument`.  The request carries no limit, so
`ds` is the first page: the first 25 of the stored records whose `userId` is
`u.$id`, newest first.  Every record of `ds` is a stored record of `u`, and
when `u` has at most 25 stored records `ds` holds exactly these (each as often
as it is stored).  Moreover, if the collection is the one a successful
`documentsAPI.create` by user `c` has just left: when `c` is another user no
document of the result has the id of the created one, and when `c` is `u` and
`u` has at most 25 stored records the created document is in the result. -/
theorem getAll_first_page (w w1 w2 : World) (u : User) (ds : List RawDoc)
    (hu : account.get w = (.ok u, w1))
    (hl : databases.listDocuments [Query.equal .userId u.id, Query.orderDesc .createdAt] w1
            = (.ok ds, w2)) :
    (documentsAPI.getAll w).1 = .ok (ds.map mapDocument) ∧
    (∃ all : List RawDoc,
      all.Perm (w.documents.filter (fun r => decide (r.userId = some u.id))) ∧
      all.Pairwise (fun x y => y.createdAt.toList ≤ x.createdAt.toList) ∧
      ds = all.take 25) ∧
    ds.length ≤ 25 ∧
    (∀ r ∈ ds, r ∈ w.documents ∧ r.userId = some u.id) ∧
    ((w.documents.filter (fun r => decide (r.userId = some u.id))).length ≤ 25 →
      ds.Perm (w.documents.filter (fun r => decide (r.userId = some u.id)))) ∧
    (∀ (data : DocData) (v v1 v3 : World) (c : User) (d : Document),
        account.get v = (.ok c, v1) → documentsAPI.create data v = (.ok d, v3) →
        w.documents = v3.documents →
        (c.id = u.id →
          (w.documents.filter (fun r => decide (r.userId = some u.id))).length ≤ 25 →
          d ∈ ds.map mapDocument) ∧
        (c.id ≠ u.id → ∀ x ∈ ds.map mapDocument, x.id ≠ d.id)) := by
  have e1 : w1 = w.next .accountGet := by rw [← account_get_snd, hu]
  have hds := listDocuments_ok _ _ _ _ hl
  have hw1 : w1.documents = w.documents := by rw [e1]; rfl
  rw [hw1] at hds
  have hperm := getAll_query_perm u.id w.documents
  have hsorted := getAll_query_sorted u.id w.documents
  have hsub : ∀ r ∈ ds, r ∈ w.documents.filter (fun r => decide (r.userId = some u.id)) := by
    intro r hr
    rw [hds] at hr
    exact hperm.subset (List.mem_of_mem_take hr)
  have hfull : (w.documents.filter (fun r => decide (r.userId = some u.id))).length ≤ 25 →
      ds.Perm (w.documents.filter (fun r => decide (r.userId = some u.id))) := by
    intro hlen
    rw [hds, List.take_of_length_le (by rw [hperm.length_eq]; exact hlen)]
    exact hperm
  refine ⟨?_, ⟨_, hperm, hsorted, hds⟩, ?_, ?_, hfull, ?_⟩
  · unfold documentsAPI.getAll
    simp [hu, hl]
  · rw [hds]
    exact List.length_take_le _ _
  · intro r hr
    have := hsub r hr
    rw [List.mem_filter] at this
    exact ⟨this.1, by simpa using this.2⟩
  · intro data v v1 v3 c d hc hcr hw
    obtain ⟨imageMeta, v2, -, hd, hdocs, hfresh⟩ := create_ok data v v1 v3 c d hc hcr
    constructor
    · intro hcu hlen
      rw [hd]
      apply List.mem_map_of_mem
      apply (hfull hlen).symm.subset
      rw [hw, hdocs]
      simp [RawDoc.ofPayload, createPayload, hcu]
    · intro hcu x hx
      obtain ⟨r, hr, rfl⟩ := List.mem_map.mp hx
      have hr2 := hsub r hr
      rw [hw, hdocs, List.mem_filter] at hr2
      obtain ⟨hmem, huid⟩ := hr2
      rw [hd]
      rcases List.mem_append.mp hmem with h | h
      · exact hfresh r h
      · exfalso
        simp only [List.mem_singleton] at h
        subst h
        simp [RawDoc.ofPayload, createPayload] at huid
        exact hcu huid

theorem getAll_first_page_witness :
    (documentsAPI.getAll (documentsAPI.create toaster (worldOf alice)).2).1
      = .ok ([toasterRecord, fridge].map mapDocument) ∧
    [toasterRecord, fridge].Perm
      ((documentsAPI.create toaster (worldOf alice)).2.documents.filter
        (fun r => decide (r.userId = some alice.id))) ∧
    mapDocument toasterRecord ∈ [toasterRecord, fridge].map mapDocument := by
  have h := getAll_first_page (documentsAPI.create toaster (worldOf alice)).2 _ _ alice
    [toasterRecord, fridge] rfl rfl
  exact ⟨h.1, h.2.2.2.2.1 (by decide),
    (h.2.2.2.2.2 toaster (worldOf alice) _ _ alice _ rfl rfl rfl).1 rfl (by decide)⟩

/-- C3 fails as stated: Alice has twenty-six stored records, and
`documentsAPI.getAll` resolves to twenty-five documents; her record whose id is
`x` repeated 26 times is not among them. -/
theorem getAll_misses_a_record :
    manyDocsWorld.documents.filter (fun r => decide (r.userId = some alice.id)) = manyDocs ∧
    manyDocs.length = 26 ∧
    (documentsAPI.getAll manyDocsWorld).1 = .ok ((manyDocs.take 25).map mapDocument) ∧
    ((manyDocs.take 25).map mapDocument).length = 25 ∧
    { fridge with id := ⟨List.replicate 26 'x'⟩, title := some "Receipt" } ∈ manyDocs ∧
    (∀ d ∈ (manyDocs.take 25).map mapDocument, d.id ≠ ⟨List.replicate 26 'x'⟩) := by
  refine ⟨by decide, by decide, rfl, by decide, by decide, by decide⟩

/-! ## The dashboard filter -/

theorem filterArray_total (lower : String → String) (query : String) (docs : List Document)
    (ht : ∀ d ∈ docs, d.title ≠ none) :
    filterArray (searchCallback lower query) docs =
      .ok (docs.filter (fun d =>
        (d.title.any fun t => includes (lower t) query) ||
        (d.store.any fun t => includes (lower t) query) ||
        (d.notes.any fun t => includes (lower t) query))) := by
  induction docs with
  | nil => rfl
  | cons d ds ih =>
    have hd : d.title ≠ none := ht d (List.mem_cons_self _ _)
    have ih2 := ih (fun x hx => ht x (List.mem_cons_of_mem _ hx))
    obtain ⟨t, ht2⟩ := Option.ne_none_iff_exists'.mp hd
    simp only [filterArray, searchCallback, ht2, ih2, List.filter_cons, Option.any_some]
    cases d.store <;> cases d.notes <;> simp

/-- On documents that all have a title, `filterDocuments` never throws: it is
the text filter (skipped for an empty text) followed by the category filter
(skipped for a falsy category). -/
theorem filterDocuments_titled (lower : String → String) (docs : List Document) (q : String)
    (c : Option String) (ht : ∀ d ∈ docs, d.title ≠ none) :
    filterDocuments lower docs q c =
      .ok ((if truthy c then List.filter (fun d => decide (d.categoryId = c)) else id)
            (if q ≠ "" then docs.filter (containsText lower q) else docs)) := by
  unfold filterDocuments
  by_cases hq : q = ""
  · by_cases hc : truthy c = true <;> simp [hq, hc]
  · have hf : filterArray (searchCallback lower (lower q)) docs
        = .ok (docs.filter (containsText lower q)) := by
      rw [filterArray_total lower _ docs ht]; rfl
    by_cases hc : truthy c = true <;> simp [hq, hc, hf]

theorem containsText_empty (lower : String → String) (hl : lower "" = "") (d : Document)
    (hd : d.title ≠ none) : containsText lower "" d = true := by
  obtain ⟨t, ht⟩ := Option.ne_none_iff_exists'.mp hd
  simp [containsText, ht, hl, includes]

theorem filter_containsText_empty (lower : String → String) (hl : lower "" = "")
    (docs : List Document) (ht : ∀ d ∈ docs, d.title ≠ none) :
    docs.filter (containsText lower "") = docs := by
  rw [List.filter_eq_self]
  intro d hd
  exact containsText_empty lower hl d (ht d hd)

/-- C4. For a list of documents that all have a title and a non-empty search
text `q`, with no category selected, `filterDocuments` yields exactly the
documents whose lower-cased title, store or notes contains the lower-cased `q`
(in their original order); a missing store or notes never matches. -/
theorem filterDocuments_text (lower : String → String) (docs : List Document) (q : String)
    (ht : ∀ d ∈ docs, d.title ≠ none) (hq : q ≠ "") :
    filterDocuments lower docs q none = .ok (docs.filter (containsText lower q)) ∧
    (∀ d ∈ docs, d.store = none → d.notes = none →
      containsText lower q d = d.title.any fun t => includes (lower t) (lower q)) := by
  constructor
  · unfold filterDocuments
    simp only [hq, ne_eq, not_false_eq_true, if_true, filterArray_total lower _ docs ht, truthy]
    rfl
  · intro d _ hs hn
    simp [containsText, hs, hn]

theorem filterDocuments_text_witness :
    filterDocuments lowerASCII milkDocs "MiLk" none
      = .ok (milkDocs.filter (containsText lowerASCII "MiLk")) ∧
    (∀ d ∈ milkDocs, d.store = none → d.notes = none →
      containsText lowerASCII "MiLk" d
        = d.title.any fun t => includes (lowerASCII t) (lowerASCII "MiLk")) :=
  filterDocuments_text lowerASCII milkDocs "MiLk" (by decide) (by decide)

/-- C5. For documents that all have a title, any search text `q` and a
selected (non-empty) category `c`, `filterDocuments` yields the documents that
satisfy the text predicate for `q` and whose `categoryId` is exactly `c`; the
same list results from filtering by `q` and then by `c`, and from filtering by
`c` and then by `q`.  (`toLowerCase` maps the empty string to itself.) -/
theorem filterDocuments_conjunction (lower : String → String) (docs : List Document)
    (q c : String) (ht : ∀ d ∈ docs, d.title ≠ none) (hl : lower "" = "") (hc : c ≠ "") :
    filterDocuments lower docs q (some c)
      = .ok (docs.filter (fun d => containsText lower q d && inCategory c d)) ∧
    (∀ d, d ∈ docs.filter (fun d => containsText lower q d && inCategory c d) ↔
      d ∈ docs ∧ containsText lower q d = true ∧ d.categoryId = some c) ∧
    (filterDocuments lower docs q none).bind (fun r => filterDocuments lower r "" (some c))
      = .ok (docs.filter (fun d => containsText lower q d && inCategory c d)) ∧
    (filterDocuments lower docs "" (some c)).bind (fun r => filterDocuments lower r q none)
      = .ok (docs.filter (fun d => containsText lower q d && inCategory c d)) := by
  have htc : truthy (some c) = true := by simp [truthy, hc]
  have hsub : ∀ (p : Document → Bool), ∀ d ∈ docs.filter p, d.title ≠ none :=
    fun p d hd => ht d (List.mem_of_mem_filter hd)
  have hcat : (fun d : Document => decide (d.categoryId = some c)) = inCategory c := rfl
  have hmain : filterDocuments lower docs q (some c)
      = .ok (docs.filter (fun d => containsText lower q d && inCategory c d)) := by
    rw [filterDocuments_titled lower docs q (some c) ht, htc]
    by_cases hq : q = ""
    · subst hq
      simp only [ne_eq, not_true_eq_false, if_false, if_true, hcat]
      congr 1
      apply List.filter_congr
      intro d hd
      rw [containsText_empty lower hl d (ht d hd)]
      simp
    · simp only [ne_eq, hq, not_false_eq_true, if_true, hcat, List.filter_filter]
      congr 1
      apply List.filter_congr
      intro d _
      exact Bool.and_comm _ _
  refine ⟨hmain, ?_, ?_, ?_⟩
  · intro d
    simp [List.mem_filter, inCategory]
  · rw [filterDocuments_titled lower docs q none ht]
    simp only [truthy, Bool.false_eq_true, if_false, id, Except.bind]
    by_cases hq : q = ""
    · subst hq
      simpa using hmain
    · simp only [ne_eq, hq, not_false_eq_true, if_true]
      rw [filterDocuments_titled lower _ "" (some c) (hsub _), htc]
      simp only [ne_eq, not_true_eq_false, if_false, if_true, hcat, List.filter_filter]
      congr 1
      apply List.filter_congr
      intro d _
      exact Bool.and_comm _ _
  · rw [filterDocuments_titled lower docs "" (some c) ht, htc]
    simp only [ne_eq, not_true_eq_false, if_false, if_true, hcat, Except.bind]
    rw [filterDocuments_titled lower _ q none (hsub _)]
    simp only [truthy, Bool.false_eq_true, if_false, id]
    by_cases hq : q = ""
    · subst hq
      simp only [ne_eq, not_true_eq_false, if_false]
      congr 1
      apply List.filter_congr
      intro d hd
      rw [containsText_empty lower hl d (ht d hd)]
      simp
    · simp only [ne_eq, hq, not_false_eq_true, if_true, List.filter_filter]

theorem filterDocuments_conjunction_witness :
    filterDocuments lowerASCII milkDocs "MiLk" (some "appliances")
      = .ok (milkDocs.filter
          (fun d => containsText lowerASCII "MiLk" d && inCategory "appliances" d)) ∧
    (∀ d, d ∈ milkDocs.filter
          (fun d => containsText lowerASCII "MiLk" d && inCategory "appliances" d) ↔
      d ∈ milkDocs ∧ containsText lowerASCII "MiLk" d = true ∧
        d.categoryId = some "appliances") ∧
    (filterDocuments lowerASCII milkDocs "MiLk" none).bind
        (fun r => filterDocuments lowerASCII r "" (some "appliances"))
      = .ok (milkDocs.filter
          (fun d => containsText lowerASCII "MiLk" d && inCategory "appliances" d)) ∧
    (filterDocuments lowerASCII milkDocs "" (some "appliances")).bind
        (fun r => filterDocuments lowerASCII r "MiLk" none)
      = .ok (milkDocs.filter
          (fun d => containsText lowerASCII "MiLk" d && inCategory "appliances" d)) :=
  filterDocuments_conjunction lowerASCII milkDocs "MiLk" "appliances" (by decide) (by decide)
    (by decide)

/-- C6. With an empty search text and no selected category (`null`, or the
falsy empty string) `filterDocuments` yields the list `documents` itself; with
an empty text and a selected category the result is the category filter alone;
with a non-empty text and no category the result is the text filter alone (on
documents that all have a title). -/
theorem filterDocuments_pass_through (lower : String → String) (docs : List Document) :
    filterDocuments lower docs "" none = .ok docs ∧
    filterDocuments lower docs "" (some "") = .ok docs ∧
    (∀ c : String, c ≠ "" →
      filterDocuments lower docs "" (some c) = .ok (docs.filter (inCategory c))) ∧
    (∀ q : String, q ≠ "" → (∀ d ∈ docs, d.title ≠ none) →
      filterDocuments lower docs q none = .ok (docs.filter (containsText lower q)) ∧
      filterDocuments lower docs q (some "") = .ok (docs.filter (containsText lower q))) := by
  refine ⟨?_, ?_, ?_, ?_⟩
  · simp [filterDocuments, truthy]
  · simp [filterDocuments, truthy]
  · intro c hc
    simp [filterDocuments, truthy, hc]
    rfl
  · intro q hq ht
    constructor
    · rw [filterDocuments_titled lower docs q none ht]
      simp [truthy, hq]
    · rw [filterDocuments_titled lower docs q (some "") ht]
      simp [truthy, hq]

theorem filterDocuments_pass_through_witness :
    filterDocuments lowerASCII milkDocs "" (some "furniture")
      = .ok (milkDocs.filter (inCategory "furniture")) ∧
    filterDocuments lowerASCII milkDocs "dairy" none
      = .ok (milkDocs.filter (containsText lowerASCII "dairy")) :=
  ⟨(filterDocuments_pass_through lowerASCII milkDocs).2.2.1 "furniture" (by decide),
   ((filterDocuments_pass_through lowerASCII milkDocs).2.2.2 "dairy" (by decide)
      (by decide)).1⟩

theorem Heap.read_alloc_new (h : Heap) (xs : List Document) :
    (h.alloc xs).2.read (h.alloc xs).1 = xs := by
  simp [Heap.read, Heap.alloc, List.getD_eq_getElem?_getD]

theorem Heap.read_alloc_old (h : Heap) (xs : List Document) (a : Nat)
    (ha : a < h.arrays.length) : (h.alloc xs).2.read a = h.read a := by
  simp [Heap.read, Heap.alloc, List.getD_eq_getElem?_getD, List.getElem?_append_left ha]

theorem Heap.alloc_length (h : Heap) (xs : List Document) :
    (h.alloc xs).2.arrays.length = h.arrays.length + 1 ∧ (h.alloc xs).1 = h.arrays.length := by
  simp [Heap.alloc]

/-- What one run of `filterDocumentsByRef` does: it only appends arrays to the
heap; it throws exactly when `filterDocuments` throws on the array `documents`
refers to; otherwise the last array appended is the value of `filterDocuments`
and its address is what the run stores in `filteredDocuments`. -/
theorem filterDocumentsByRef_spec (lower : String → String) (h : Heap) (st : DashboardState) :
    (∀ e, filterDocuments lower (h.read st.documents) st.searchQuery st.selectedCategory
            = .error e →
        ∃ extra : List (List Document),
          filterDocumentsByRef lower h st = (.error e, ⟨h.arrays ++ extra⟩)) ∧
    (∀ res, filterDocuments lower (h.read st.documents) st.searchQuery st.selectedCategory
            = .ok res →
        ∃ extra : List (List Document),
          filterDocumentsByRef lower h st =
            (.ok { st with filteredDocuments := (h.arrays ++ extra).length },
             ⟨h.arrays ++ extra ++ [res]⟩)) := by
  unfold filterDocumentsByRef filterDocuments
  simp only [Heap.read_alloc_new]
  by_cases hq : st.searchQuery = ""
  · by_cases hc : truthy st.selectedCategory = true
    · simp only [hq, hc, ne_eq, not_true_eq_false, if_false, if_true, Heap.read_alloc_new]
      refine ⟨by simp, ?_⟩
      intro res hres
      simp only [Except.ok.injEq] at hres
      subst hres
      exact ⟨[h.read st.documents], by simp [Heap.alloc]⟩
    · simp only [hq, hc, ne_eq, not_true_eq_false, if_false, Bool.false_eq_true]
      refine ⟨by simp, ?_⟩
      intro res hres
      simp only [Except.ok.injEq] at hres
      subst hres
      exact ⟨[], by simp [Heap.alloc]⟩
  · simp only [hq, ne_eq, not_false_eq_true, if_true]
    cases filterArray (searchCallback lower (lower st.searchQuery)) (h.read st.documents) with
    | error e =>
      refine ⟨?_, by simp⟩
      intro e2 he
      simp only [Except.error.injEq] at he
      subst he
      exact ⟨[h.read st.documents], by simp [Heap.alloc]⟩
    | ok kept =>
      by_cases hc : truthy st.selectedCategory = true
      · simp only [hc, if_true, Heap.read_alloc_new]
        refine ⟨by simp, ?_⟩
        intro res hres
        simp only [Except.ok.injEq] at hres
        subst hres
        exact ⟨[h.read st.documents, kept], by simp [Heap.alloc]⟩
      · simp only [hc, Bool.false_eq_true, if_false]
        refine ⟨by simp, ?_⟩
        intro res hres
        simp only [Except.ok.injEq] at hres
        subst hres
        exact ⟨[h.read st.documents], by simp [Heap.alloc]⟩

theorem read_append_old (arrays extra : List (List Document)) (a : Nat)
    (ha : a < arrays.length) :
    Heap.read ⟨arrays ++ extra⟩ a = Heap.read ⟨arrays⟩ a := by
  simp [Heap.read, List.getD_eq_getElem?_getD, List.getElem?_append_left ha]

/-- C7. One run of `filterDocuments` on the heap, for any search text and
category: the variable `documents` still refers to the same array, every array
that existed before the run (the one `documents` refers to among them) has the
same elements in the same order afterwards, also when the run throws; and when
the run sets `filteredDocuments`, it sets it to the address of an array that
did not exist before (so not the `documents` array), holding the filter result.
On documents that all have a title the run does set it. -/
theorem filterDocuments_frame (lower : String → String) (h : Heap) (st : DashboardState)
    (hd : st.documents < h.arrays.length) :
    (∀ a, a < h.arrays.length → (filterDocumentsByRef lower h st).2.read a = h.read a) ∧
    (filterDocumentsByRef lower h st).2.read st.documents = h.read st.documents ∧
    (∀ st2, (filterDocumentsByRef lower h st).1 = .ok st2 →
      st2.documents = st.documents ∧
      st2.filteredDocuments ≠ st.documents ∧
      h.arrays.length ≤ st2.filteredDocuments ∧
      st2.filteredDocuments < (filterDocumentsByRef lower h st).2.arrays.length ∧
      filterDocuments lower (h.read st.documents) st.searchQuery st.selectedCategory
        = .ok ((filterDocumentsByRef lower h st).2.read st2.filteredDocuments)) ∧
    ((∀ d ∈ h.read st.documents, d.title ≠ none) →
      ∃ st2, (filterDocumentsByRef lower h st).1 = .ok st2) := by
  obtain ⟨herr, hok⟩ := filterDocumentsByRef_spec lower h st
  cases hfd : filterDocuments lower (h.read st.documents) st.searchQuery st.selectedCategory with
  | error e =>
    obtain ⟨extra, hrun⟩ := herr e hfd
    rw [hrun]
    refine ⟨fun a ha => read_append_old _ _ a ha, read_append_old _ _ _ hd, ?_, ?_⟩
    · intro st2 h2
      simp at h2
    · intro ht
      rw [filterDocuments_titled lower _ _ _ ht] at hfd
      simp at hfd
  | ok res =>
    obtain ⟨extra, hrun⟩ := hok res hfd
    rw [hrun]
    refine ⟨fun a ha => ?_, ?_, ?_, fun _ => ⟨_, rfl⟩⟩
    · rw [List.append_assoc]; exact read_append_old _ _ a ha
    · rw [List.append_assoc]; exact read_append_old _ _ _ hd
    · intro st2 h2
      simp only [Except.ok.injEq] at h2
      subst h2
      refine ⟨rfl, ?_, ?_, ?_, ?_⟩
      · simp only [List.length_append]; omega
      · simp only [List.length_append]; omega
      · simp only [List.length_append, List.length_singleton]; omega
      · exact congrArg Except.ok (Heap.read_alloc_new ⟨h.arrays ++ extra⟩ res).symm

theorem filterDocuments_frame_witness :
    (∀ a, a < (⟨[milkDocs]⟩ : Heap).arrays.length →
      (filterDocumentsByRef lowerASCII ⟨[milkDocs]⟩ ⟨0, 0, "MiLk", some "appliances"⟩).2.read a
        = (⟨[milkDocs]⟩ : Heap).read a) ∧
    (filterDocumentsByRef lowerASCII ⟨[milkDocs]⟩ ⟨0, 0, "MiLk", some "appliances"⟩).2.read 0
      = milkDocs ∧
    (filterDocumentsByRef lowerASCII ⟨[milkDocs]⟩ ⟨0, 0, "MiLk", some "appliances"⟩).1
      = .ok ⟨0, 3, "MiLk", some "appliances"⟩ := by
  have h := filterDocuments_frame lowerASCII ⟨[milkDocs]⟩ ⟨0, 0, "MiLk", some "appliances"⟩
    (by decide)
  exact ⟨h.1, h.2.1, rfl⟩

/-! ## Creating a document -/

/-- C8, as the code has it.  Validation is done by `handleSubmit` of the
upload screen: with an empty title it only sets the message
`Title is required`; with a title, at least one category and an empty
`categoryId` it only sets `Category is required`.  In both cases the world is
left as it was: `documentsAPI.create` is not called, nothing is uploaded and no
record is stored. -/
theorem handleSubmit_validates (form : UploadForm) (w : World) :
    (form.title = "" →
      handleSubmit form w = ({ form with error := "Title is required" }, w)) ∧
    (form.title ≠ "" → form.categories.length > 0 → form.categoryId = "" →
      handleSubmit form w = ({ form with error := "Category is required" }, w)) := by
  constructor
  · intro h
    simp [handleSubmit, h]
  · intro h1 h2 h3
    simp [handleSubmit, h1, h2, h3]

theorem handleSubmit_validates_witness :
    handleSubmit (blankForm STATIC_CATEGORIES) (worldOf alice)
      = ({ blankForm STATIC_CATEGORIES with error := "Title is required" }, worldOf alice) ∧
    handleSubmit { blankForm STATIC_CATEGORIES with title := "Kettle" } (worldOf alice)
      = ({ blankForm STATIC_CATEGORIES with title := "Kettle", error := "Category is required" },
         worldOf alice) :=
  ⟨(handleSubmit_validates (blankForm STATIC_CATEGORIES) (worldOf alice)).1 rfl,
   (handleSubmit_validates { blankForm STATIC_CATEGORIES with title := "Kettle" }
      (worldOf alice)).2 (by decide) (by decide) rfl⟩

/-- C9. Let `account.get()` resolve to `u`.  For a draft with an image: if the
upload throws `e`, `documentsAPI.create` throws `e` in the world the upload
left, the collection is as before and no `createDocument` call has been made;
if the upload succeeds, the calls made are, in this order, `account.get`,
`getInfoAsync`, `createFile`, `createDocument`.  For a draft without an image
`documentsAPI.create` is the `createDocument` call alone: the calls made are
`account.get` and `createDocument`, the bucket is as before, and the outcome of
`createDocument` (mapped by `mapDocument`) is the outcome of `create`. -/
theorem create_uploads_first (data : DocData) (w w1 : World) (u : User)
    (hu : account.get w = (.ok u, w1)) :
    (∀ img, data.image = some img →
      (∀ e w2, uploadImageIfNeeded (some img) w1 = (.error e, w2) →
        documentsAPI.create data w = (.error e, w2) ∧ w2.documents = w.documents ∧
        ∃ calls, w2.log = w.log ++ calls ∧ ∀ c ∈ calls, c.isCreateDocument = false) ∧
      (∀ m w2, uploadImageIfNeeded (some img) w1 = (.ok m, w2) →
        ∃ fid did, m = some ⟨fid, viewUrl fid⟩ ∧
          (documentsAPI.create data w).2.log = w.log ++
            [Call.accountGet, Call.getInfoAsync img.uri,
             Call.createFile APPWRITE_BUCKET_ID fid (fileOf img (w.localFiles.lookup img.uri)),
             Call.createDocument did (createPayload u data m)])) ∧
    (data.image = none →
      documentsAPI.create data w =
        ((databases.createDocument (ID.unique w1).1 (createPayload u data none)
            (ID.unique w1).2).1.map mapDocument,
         (databases.createDocument (ID.unique w1).1 (createPayload u data none)
            (ID.unique w1).2).2) ∧
      (documentsAPI.create data w).2.log = w.log ++
        [Call.accountGet, Call.createDocument (ID.unique w1).1 (createPayload u data none)] ∧
      (documentsAPI.create data w).2.files = w.files) := by
  have e1 : w1 = w.next .accountGet := by rw [← account_get_snd, hu]
  have hlog1 : w1.log = w.log ++ [Call.accountGet] := by rw [e1]; rfl
  constructor
  · intro img himg
    have hmeta : createImageMeta data w1 = uploadImageIfNeeded (some img) w1 := by
      simp [createImageMeta, himg]
    constructor
    · intro e w2 hup
      refine ⟨?_, ?_, ?_⟩
      · unfold documentsAPI.create
        simp [hu, hmeta, hup]
      · have hf := (uploadImageIfNeeded_snd_fields (some img) w1).1
        rw [hup] at hf
        rw [hf, e1]; rfl
      · rcases uploadImageIfNeeded_cases img w1 with ⟨e2, h⟩ | ⟨e2, h⟩ | ⟨-, h⟩
        · rw [hup] at h
          simp only [Prod.mk.injEq] at h
          refine ⟨[Call.accountGet, Call.getInfoAsync img.uri], ?_, ?_⟩
          · rw [h.2]; simp [next_log, hlog1]
          · simp [Call.isCreateDocument]
        · rw [hup] at h
          simp only [Prod.mk.injEq] at h
          refine ⟨[Call.accountGet, Call.getInfoAsync img.uri,
            Call.createFile APPWRITE_BUCKET_ID (ID.unique (w1.next (.getInfoAsync img.uri))).1
              (fileOf img (w1.localFiles.lookup img.uri))], ?_, ?_⟩
          · rw [h.2]; simp [next_log, unique_log, hlog1]
          · simp [Call.isCreateDocument]
        · rw [hup] at h
          simp at h
    · intro m w2 hup
      rcases uploadImageIfNeeded_cases img w1 with ⟨e2, h⟩ | ⟨e2, h⟩ | ⟨-, h⟩
      · rw [hup] at h; simp at h
      · rw [hup] at h; simp at h
      · rw [hup] at h
        simp only [Prod.mk.injEq, Except.ok.injEq] at h
        have hun2 := unique_snd_fields w2
        refine ⟨(ID.unique (w1.next (.getInfoAsync img.uri))).1, (ID.unique w2).1, h.1, ?_⟩
        have hlf : w1.localFiles = w.localFiles := by rw [e1]; rfl
        have hlog2 : w2.log = w.log ++ [Call.accountGet, Call.getInfoAsync img.uri,
            Call.createFile APPWRITE_BUCKET_ID (ID.unique (w1.next (.getInfoAsync img.uri))).1
              (fileOf img (w.localFiles.lookup img.uri))] := by
          rw [h.2]; simp [next_log, unique_log, hlog1, hlf]
        unfold documentsAPI.create
        simp only [hu, hmeta, hup]
        have hcd := (createDocument_snd_fields (ID.unique w2).1 (createPayload u data m)
          (ID.unique w2).2).1
        rw [hun2.2.2.2.1, hlog2] at hcd
        rcases hres : databases.createDocument (ID.unique w2).1 (createPayload u data m)
          (ID.unique w2).2 with ⟨r, w3⟩
        rw [hres] at hcd
        cases r <;> simpa using hcd
  · intro himg
    have hmeta : createImageMeta data w1 = (.ok none, w1) := by
      simp [createImageMeta, himg]
    have hun := unique_snd_fields w1
    have hcd := createDocument_snd_fields (ID.unique w1).1 (createPayload u data none)
      (ID.unique w1).2
    rw [hun.2.2.2.1, hun.2.1, hlog1] at hcd
    have hfiles1 : w1.files = w.files := by rw [e1]; rfl
    rw [hfiles1] at hcd
    have hmain : documentsAPI.create data w =
        ((databases.createDocument (ID.unique w1).1 (createPayload u data none)
            (ID.unique w1).2).1.map mapDocument,
         (databases.createDocument (ID.unique w1).1 (createPayload u data none)
            (ID.unique w1).2).2) := by
      unfold documentsAPI.create
      simp only [hu, hmeta]
      rcases databases.createDocument (ID.unique w1).1 (createPayload u data none)
        (ID.unique w1).2 with ⟨r, w3⟩
      cases r <;> rfl
    refine ⟨hmain, ?_, ?_⟩
    · rw [hmain]; simpa using hcd.1
    · rw [hmain]; exact hcd.2

theorem create_uploads_first_witness :
    documentsAPI.create untitled { worldOf alice with faults := [none, none, some ⟨"Network request failed"⟩] }
      = (.error ⟨"Network request failed"⟩,
         { worldOf alice with
           faults := [], ids := ["n2"],
           log := [Call.accountGet, Call.getInfoAsync "file:///a.jpg",
                   Call.createFile APPWRITE_BUCKET_ID "n1" (fileOf photo (some 7))] }) ∧
    (documentsAPI.create toaster (worldOf alice)).2.log =
      (worldOf alice).log ++
        [Call.accountGet, Call.createDocument "n1" (createPayload alice toaster none)] ∧
    (documentsAPI.create toaster (worldOf alice)).2.files = (worldOf alice).files := by
  have h1 := ((create_uploads_first untitled
    { worldOf alice with faults := [none, none, some ⟨"Network request failed"⟩] } _ alice rfl).1
      photo rfl).1 ⟨"Network request failed"⟩ _ rfl
  have h2 := (create_uploads_first toaster (worldOf alice) _ alice rfl).2 rfl
  exact ⟨h1.1, h2.2.1, h2.2.2⟩

theorem jsOr_empty (x : Option String) : jsOr x "" = x.getD "" := by
  cases x with
  | none => rfl
  | some s =>
    by_cases h : s = ""
    · simp [jsOr, h]
    · simp [jsOr, h]

/-- C10. When `account.get()` resolves to `u` and `documentsAPI.create`
succeeds, the collection has gained exactly one record `r`, the one the
resolved document is mapped from, with `userId` equal to `u.$id`, `title` and
`categoryId` as in the draft, `store`, `expirationDate` and `notes` equal to
the draft's value or to the empty string when absent, and `imageUrl` /
`imageFileId` equal to the url and file id the upload resolved to, both empty
when the draft has no image. -/
theorem create_record_fields (data : DocData) (w w1 w3 : World) (u : User) (d : Document)
    (hu : account.get w = (.ok u, w1)) (hc : documentsAPI.create data w = (.ok d, w3)) :
    ∃ r : RawDoc, w3.documents = w.documents ++ [r] ∧ d = mapDocument r ∧
      r.userId = some u.id ∧ r.title = data.title ∧ r.categoryId = data.categoryId ∧
      r.store = some (data.store.getD "") ∧
      r.expirationDate = some (data.expirationDate.getD "") ∧
      r.notes = some (data.notes.getD "") ∧
      (data.image = none → r.imageUrl = some "" ∧ r.imageFileId = some "") ∧
      (∀ img, data.image = some img →
        ∃ m w2, uploadImageIfNeeded (some img) w1 = (.ok (some m), w2) ∧
          r.imageUrl = some m.imageUrl ∧ r.imageFileId = some m.fileId) := by
  obtain ⟨imageMeta, w2, hmeta, hd, hdocs, -⟩ := create_ok data w w1 w3 u d hu hc
  refine ⟨_, hdocs, hd, rfl, rfl, rfl, ?_, ?_, ?_, ?_, ?_⟩
  · simp [RawDoc.ofPayload, createPayload, jsOr_empty]
  · simp [RawDoc.ofPayload, createPayload, jsOr_empty]
  · simp [RawDoc.ofPayload, createPayload, jsOr_empty]
  · intro himg
    have : imageMeta = none := by
      simp [createImageMeta, himg] at hmeta
      exact hmeta.1.symm
    subst this
    simp [RawDoc.ofPayload, createPayload, jsOr]
  · intro img himg
    have hup : uploadImageIfNeeded (some img) w1 = (.ok imageMeta, w2) := by
      simpa [createImageMeta, himg] using hmeta
    rcases uploadImageIfNeeded_cases img w1 with ⟨e2, h⟩ | ⟨e2, h⟩ | ⟨-, h⟩
    · rw [hup] at h; simp at h
    · rw [hup] at h; simp at h
    · rw [hup] at h
      simp only [Prod.mk.injEq, Except.ok.injEq] at h
      refine ⟨{ fileId := (ID.unique (w1.next (.getInfoAsync img.uri))).1
                imageUrl := viewUrl (ID.unique (w1.next (.getInfoAsync img.uri))).1 },
        w2, ?_, ?_, ?_⟩
      · rw [hup, h.1]
      · simp [RawDoc.ofPayload, createPayload, h.1, jsOr_empty]
      · simp [RawDoc.ofPayload, createPayload, h.1, jsOr_empty]

theorem create_record_fields_witness :
    ∃ r : RawDoc,
      (documentsAPI.create untitled (worldOf alice)).2.documents
        = (worldOf alice).documents ++ [r] ∧
      { id := "n2", title := some "", categoryId := some "", categoryName := "Uncategorized",
        store := some "", uploadDate := "2024-03-01", expirationDate := some "",
        notes := some "", imageUrl := some (viewUrl "n1") } = mapDocument r ∧
      r.userId = some alice.id ∧ r.title = untitled.title ∧
      r.categoryId = untitled.categoryId ∧
      r.store = some (untitled.store.getD "") ∧
      r.expirationDate = some (untitled.expirationDate.getD "") ∧
      r.notes = some (untitled.notes.getD "") ∧
      (untitled.image = none → r.imageUrl = some "" ∧ r.imageFileId = some "") ∧
      (∀ img, untitled.image = some img →
        ∃ m w2, uploadImageIfNeeded (some img) ((worldOf alice).next .accountGet)
            = (.ok (some m), w2) ∧
          r.imageUrl = some m.imageUrl ∧ r.imageFileId = some m.fileId) :=
  create_record_fields untitled (worldOf alice) _ _ alice _ rfl rfl

/-- C8 fails for `documentsAPI.create` itself: called with an empty title and an
empty category id it does not throw; it uploads the photo and stores a record. -/
theorem create_does_not_validate :
    (documentsAPI.create untitled (worldOf alice)).1 =
      .ok { id := "n2", title := some "", categoryId := some "", categoryName := "Uncategorized",
            store := some "", uploadDate := "2024-03-01", expirationDate := some "",
            notes := some "", imageUrl := some (viewUrl "n1") } ∧
    (documentsAPI.create untitled (worldOf alice)).2.files =
      [⟨"n1", { uri := "file:///a.jpg", name := "document.jpg", type := "image/jpeg", size := 7 }⟩] ∧
    (documentsAPI.create untitled (worldOf alice)).2.documents =
      [fridge,
       { id := "n2", createdAt := "2024-03-01", userId := some "u-alice", title := some "",
         categoryId := some "", store := some "", uploadDate := none, expirationDate := some "",
         notes := some "", imageUrl := some (viewUrl "n1"), imageFileId := some "n1" }] := by
  refine ⟨?_, ?_, ?_⟩ <;> rfl

/-! ## Updating a document -/

theorem updateDocument_snd_fields (id : String) (data : Payload) (w : World) :
    (databases.updateDocument id data w).2.log = w.log ++ [.updateDocument id data] ∧
    (databases.updateDocument id data w).2.files = w.files := by
  unfold databases.updateDocument
  split
  · simp [World.next]
  · split <;> simp [World.next]

theorem find_map_patch (id : String) (data : Payload) (l : List RawDoc) :
    (l.map (fun x => if x.id = id then x.patch data else x)).find?
        (fun d => decide (d.id = id))
      = (l.find? (fun d => decide (d.id = id))).map (fun r => r.patch data) := by
  induction l with
  | nil => rfl
  | cons x xs ih =>
    by_cases hx : x.id = id
    · have hp : (x.patch data).id = id := hx
      simp [List.find?, hx, hp]
    · simp [List.find?, hx, ih]

theorem updateDocument_ok (id : String) (data : Payload) (w w1 : World) (r2 : RawDoc)
    (h : databases.updateDocument id data w = (.ok r2, w1)) :
    ∃ r, w.documents.find? (fun d => decide (d.id = id)) = some r ∧ r2 = r.patch data ∧
      w1.documents = w.documents.map (fun x => if x.id = id then x.patch data else x) ∧
      w1.documents.find? (fun d => decide (d.id = id)) = some r2 := by
  unfold databases.updateDocument at h
  split at h
  · simp at h
  · split at h
    · simp at h
    · rename_i r hr
      simp only [Prod.mk.injEq, Except.ok.injEq] at h
      obtain ⟨h1, h2⟩ := h
      subst h2
      subst h1
      refine ⟨r, hr, rfl, rfl, ?_⟩
      show (w.documents.map (fun x => if x.id = id then x.patch data else x)).find?
        (fun d => decide (d.id = id)) = some (r.patch data)
      rw [find_map_patch, hr]
      rfl

theorem imageFields_snd_fields (data : DocData) (w : World) :
    (imageFields data w).2.documents = w.documents := by
  unfold imageFields
  split
  · split
    · have h := (uploadImageIfNeeded_snd_fields data.image w).1
      rcases hup : uploadImageIfNeeded data.image w with ⟨r, w1⟩
      rw [hup] at h
      cases r <;> exact h
    · split <;> rfl
  · rfl

/-- For an owned record `documentsAPI.update` is `imageFields` followed by the
`updateDocument` call. -/
theorem update_owned (id : String) (data : DocData) (w w1 w2 : World) (u : User) (r : RawDoc)
    (hu : account.get w = (.ok u, w1)) (hr : databases.getDocument id w1 = (.ok r, w2))
    (hown : r.userId = some u.id) :
    documentsAPI.update id data w =
      match imageFields data w2 with
      | (.error e, w3) => (.error e, w3)
      | (.ok fields, w3) =>
        ((databases.updateDocument id (updatePayload data fields) w3).1.map mapDocument,
         (databases.updateDocument id (updatePayload data fields) w3).2) := by
  unfold documentsAPI.update
  simp only [hu, hr, hown, ne_eq, not_true_eq_false, if_false]
  rcases imageFields data w2 with ⟨f, w3⟩
  cases f with
  | error e => rfl
  | ok fields =>
    simp only
    rcases databases.updateDocument id (updatePayload data fields) w3 with ⟨x, w4⟩
    cases x <;> rfl

/-- A successful `documentsAPI.update` of an owned record `r`: the record stored
under the id is `r` patched with the payload, the resolved document is mapped
from it, and every record with another id is as before. -/
theorem update_ok (id : String) (data : DocData) (w w1 w2 w3 w4 : World) (u : User)
    (r : RawDoc) (fields : Option String × Option String) (d : Document)
    (hu : account.get w = (.ok u, w1)) (hr : databases.getDocument id w1 = (.ok r, w2))
    (hown : r.userId = some u.id) (hf : imageFields data w2 = (.ok fields, w3))
    (hup : documentsAPI.update id data w = (.ok d, w4)) :
    d = mapDocument (r.patch (updatePayload data fields)) ∧
    w4.documents.find? (fun x => decide (x.id = id))
      = some (r.patch (updatePayload data fields)) ∧
    w4.documents = w.documents.map
      (fun x => if x.id = id then x.patch (updatePayload data fields) else x) := by
  have e1 : w1 = w.next .accountGet := by rw [← account_get_snd, hu]
  have e2 : w2 = w1.next (.getDocument id) := by rw [← getDocument_snd, hr]
  have hfind := getDocument_ok id w1 w2 r hr
  have hd3 : w3.documents = w.documents := by
    have := imageFields_snd_fields data w2
    rw [hf] at this
    rw [this, e2, e1]; rfl
  rw [update_owned id data w w1 w2 u r hu hr hown, hf] at hup
  simp only at hup
  rcases hud : databases.updateDocument id (updatePayload data fields) w3 with ⟨x, w5⟩
  rw [hud] at hup
  cases x with
  | error e => simp [Except.map] at hup
  | ok r2 =>
    simp only [Except.map, Prod.mk.injEq, Except.ok.injEq] at hup
    obtain ⟨r0, h0, h2, hdocs, hfind2⟩ := updateDocument_ok _ _ _ _ _ hud
    have hw1 : w1.documents = w.documents := by rw [e1]; rfl
    rw [hd3, ← hw1, hfind] at h0
    simp only [Option.some.injEq] at h0
    subst h0
    subst h2
    rw [← hup.2]
    refine ⟨hup.1.symm, hfind2, ?_⟩
    rw [hdocs, hd3]

/-- The world after the two reads that open `update` and `delete`. -/
theorem after_reads (id : String) (w w1 w2 : World) (u : User) (r : RawDoc)
    (hu : account.get w = (.ok u, w1)) (hr : databases.getDocument id w1 = (.ok r, w2)) :
    w2.log = w.log ++ [Call.accountGet, Call.getDocument id] ∧ w2.files = w.files ∧
    w2.documents = w.documents ∧ w.documents.find? (fun d => decide (d.id = id)) = some r := by
  have e1 : w1 = w.next .accountGet := by rw [← account_get_snd, hu]
  have e2 : w2 = w1.next (.getDocument id) := by rw [← getDocument_snd, hr]
  have hfind := getDocument_ok id w1 w2 r hr
  refine ⟨?_, ?_, ?_, ?_⟩
  · rw [e2, e1]; simp [next_log]
  · rw [e2, e1]; rfl
  · rw [e2, e1]; rfl
  · rw [e1] at hfind; exact hfind

/-- C12. For an owned record and a patch whose `imageChanged` is false,
whatever its `image` and `deleteImage`: `documentsAPI.update` is the two reads
followed by one `updateDocument` call whose payload has neither `imageUrl` nor
`imageFileId`; nothing is uploaded (no `getInfoAsync`, no `createFile`, bucket
unchanged); and when the update succeeds the stored record has the `imageUrl`
and `imageFileId` it had before. -/
theorem update_keeps_attachment (id : String) (data : DocData) (w w1 w2 : World) (u : User)
    (r : RawDoc) (hu : account.get w = (.ok u, w1))
    (hr : databases.getDocument id w1 = (.ok r, w2)) (hown : r.userId = some u.id)
    (hic : data.imageChanged = false) :
    documentsAPI.update id data w =
      ((databases.updateDocument id (updatePayload data (none, none)) w2).1.map mapDocument,
       (databases.updateDocument id (updatePayload data (none, none)) w2).2) ∧
    (updatePayload data (none, none)).imageUrl = none ∧
    (updatePayload data (none, none)).imageFileId = none ∧
    (documentsAPI.update id data w).2.log = w.log ++
      [Call.accountGet, Call.getDocument id,
       Call.updateDocument id (updatePayload data (none, none))] ∧
    (documentsAPI.update id data w).2.files = w.files ∧
    (∀ d w4, documentsAPI.update id data w = (.ok d, w4) →
      ∃ r2, w4.documents.find? (fun x => decide (x.id = id)) = some r2 ∧
        r2.imageUrl = r.imageUrl ∧ r2.imageFileId = r.imageFileId) := by
  have hf : imageFields data w2 = (.ok (none, none), w2) := by simp [imageFields, hic]
  have hmain := update_owned id data w w1 w2 u r hu hr hown
  rw [hf] at hmain
  simp only at hmain
  obtain ⟨hlog, hfiles, -, -⟩ := after_reads id w w1 w2 u r hu hr
  have hs := updateDocument_snd_fields id (updatePayload data (none, none)) w2
  refine ⟨hmain, rfl, rfl, ?_, ?_, ?_⟩
  · rw [hmain]; simp [hs.1, hlog]
  · rw [hmain]; simp [hs.2, hfiles]
  · intro d w4 hup
    obtain ⟨-, hfind, -⟩ := update_ok id data w w1 w2 w2 w4 u r (none, none) d hu hr hown hf hup
    exact ⟨_, hfind, rfl, rfl⟩

theorem update_keeps_attachment_witness :
    documentsAPI.update "d2"
        { titleOnly "Lamp" with image := some photo, deleteImage := true } twoDocs =
      ((databases.updateDocument "d2"
          (updatePayload { titleOnly "Lamp" with image := some photo, deleteImage := true }
            (none, none))
          ((twoDocs.next .accountGet).next (.getDocument "d2"))).1.map mapDocument,
       (databases.updateDocument "d2"
          (updatePayload { titleOnly "Lamp" with image := some photo, deleteImage := true }
            (none, none))
          ((twoDocs.next .accountGet).next (.getDocument "d2"))).2) ∧
    (documentsAPI.update "d2"
        { titleOnly "Lamp" with image := some photo, deleteImage := true } twoDocs).2.files
      = twoDocs.files ∧
    (∃ r2, (documentsAPI.update "d2"
        { titleOnly "Lamp" with image := some photo, deleteImage := true }
        twoDocs).2.documents.find? (fun x => decide (x.id = "d2")) = some r2 ∧
      r2.imageUrl = lamp.imageUrl ∧ r2.imageFileId = lamp.imageFileId) := by
  have h := update_keeps_attachment "d2"
    { titleOnly "Lamp" with image := some photo, deleteImage := true } twoDocs _ _ alice lamp
    rfl rfl rfl rfl
  exact ⟨h.1, h.2.2.2.2.1, h.2.2.2.2.2 _ _ rfl⟩

/-- An upload that succeeds: the two calls it logs, the file it adds and the
value it resolves to. -/
theorem upload_ok (img : ImageAsset) (w w3 : World) (m : Option ImageMeta)
    (h : uploadImageIfNeeded (some img) w = (.ok m, w3)) :
    ∃ fid, m = some ⟨fid, viewUrl fid⟩ ∧
      w3.log = w.log ++ [Call.getInfoAsync img.uri,
        Call.createFile APPWRITE_BUCKET_ID fid (fileOf img (w.localFiles.lookup img.uri))] ∧
      w3.files = w.files ++ [⟨fid, fileOf img (w.localFiles.lookup img.uri)⟩] ∧
      w3.documents = w.documents ∧ validId fid = true := by
  have hd := (uploadImageIfNeeded_snd_fields (some img) w).1
  rw [h] at hd
  rcases uploadImageIfNeeded_cases img w with ⟨e2, h2⟩ | ⟨e2, h2⟩ | ⟨hv, h2⟩
  · rw [h] at h2; simp at h2
  · rw [h] at h2; simp at h2
  · rw [h] at h2
    simp only [Prod.mk.injEq, Except.ok.injEq] at h2
    refine ⟨(ID.unique (w.next (.getInfoAsync img.uri))).1, h2.1, ?_, ?_, hd, hv⟩
    · rw [h2.2]; simp [next_log, unique_log]
    · rw [h2.2]

/-- An upload that fails: it has logged `getInfoAsync` and at most one
`createFile`, and has changed neither the bucket nor the collection. -/
theorem upload_error (img : ImageAsset) (w w3 : World) (e : JSError)
    (h : uploadImageIfNeeded (some img) w = (.error e, w3)) :
    (w3.log = w.log ++ [Call.getInfoAsync img.uri] ∨
      ∃ fid, w3.log = w.log ++ [Call.getInfoAsync img.uri,
        Call.createFile APPWRITE_BUCKET_ID fid (fileOf img (w.localFiles.lookup img.uri))]) ∧
    w3.files = w.files ∧ w3.documents = w.documents := by
  have hd := (uploadImageIfNeeded_snd_fields (some img) w).1
  rw [h] at hd
  rcases uploadImageIfNeeded_cases img w with ⟨e2, h2⟩ | ⟨e2, h2⟩ | ⟨hv, h2⟩
  · rw [h] at h2
    simp only [Prod.mk.injEq] at h2
    refine ⟨Or.inl ?_, ?_, hd⟩
    · rw [h2.2]; rfl
    · rw [h2.2]; rfl
  · rw [h] at h2
    simp only [Prod.mk.injEq] at h2
    refine ⟨Or.inr ⟨(ID.unique (w.next (.getInfoAsync img.uri))).1, ?_⟩, ?_, hd⟩
    · rw [h2.2]; simp [next_log, unique_log]
    · rw [h2.2]
      exact (unique_snd_fields (w.next (.getInfoAsync img.uri))).2.1
  · rw [h] at h2; simp at h2

/-- C13, as the code has it.  For an owned record and a patch with
`imageChanged` true and no image, what happens depends on `deleteImage`.  When
it is true the payload carries `imageUrl: ''` and `imageFileId: ''`, nothing is
uploaded, and a successful update leaves both stored fields empty.  When it is
false the payload carries neither key and a successful update leaves both
stored fields as they were.  The patch built by `handleSave` always has
`deleteImage` true in this situation. -/
theorem update_clears_attachment (id : String) (data : DocData) (w w1 w2 : World) (u : User)
    (r : RawDoc) (hu : account.get w = (.ok u, w1))
    (hr : databases.getDocument id w1 = (.ok r, w2)) (hown : r.userId = some u.id)
    (hic : data.imageChanged = true) (himg : data.image = none) :
    (data.deleteImage = true →
      (documentsAPI.update id data w).2.log = w.log ++
        [Call.accountGet, Call.getDocument id,
         Call.updateDocument id (updatePayload data (some "", some ""))] ∧
      (documentsAPI.update id data w).2.files = w.files ∧
      (∀ d w4, documentsAPI.update id data w = (.ok d, w4) →
        ∃ r2, w4.documents.find? (fun x => decide (x.id = id)) = some r2 ∧
          r2.imageUrl = some "" ∧ r2.imageFileId = some "")) ∧
    (data.deleteImage = false →
      (documentsAPI.update id data w).2.log = w.log ++
        [Call.accountGet, Call.getDocument id,
         Call.updateDocument id (updatePayload data (none, none))] ∧
      (documentsAPI.update id data w).2.files = w.files ∧
      (∀ d w4, documentsAPI.update id data w = (.ok d, w4) →
        ∃ r2, w4.documents.find? (fun x => decide (x.id = id)) = some r2 ∧
          r2.imageUrl = r.imageUrl ∧ r2.imageFileId = r.imageFileId)) ∧
    (∀ form : DetailForm, form.imageChanged = true → form.image = none →
      form.patch.imageChanged = true ∧ form.patch.image = none ∧
      form.patch.deleteImage = true) := by
  obtain ⟨hlog, hfiles, -, -⟩ := after_reads id w w1 w2 u r hu hr
  have hmain := update_owned id data w w1 w2 u r hu hr hown
  refine ⟨?_, ?_, ?_⟩
  · intro hdel
    have hf : imageFields data w2 = (.ok (some "", some ""), w2) := by
      simp [imageFields, hic, himg, hdel]
    rw [hf] at hmain
    simp only at hmain
    have hs := updateDocument_snd_fields id (updatePayload data (some "", some "")) w2
    refine ⟨?_, ?_, ?_⟩
    · rw [hmain]; simp [hs.1, hlog]
    · rw [hmain]; simp [hs.2, hfiles]
    · intro d w4 hup
      obtain ⟨-, hfind, -⟩ :=
        update_ok id data w w1 w2 w2 w4 u r (some "", some "") d hu hr hown hf hup
      exact ⟨_, hfind, rfl, rfl⟩
  · intro hdel
    have hf : imageFields data w2 = (.ok (none, none), w2) := by
      simp [imageFields, hic, himg, hdel]
    rw [hf] at hmain
    simp only at hmain
    have hs := updateDocument_snd_fields id (updatePayload data (none, none)) w2
    refine ⟨?_, ?_, ?_⟩
    · rw [hmain]; simp [hs.1, hlog]
    · rw [hmain]; simp [hs.2, hfiles]
    · intro d w4 hup
      obtain ⟨-, hfind, -⟩ :=
        update_ok id data w w1 w2 w2 w4 u r (none, none) d hu hr hown hf hup
      exact ⟨_, hfind, rfl, rfl⟩
  · intro form h1 h2
    simp [DetailForm.patch, h1, h2]

theorem update_clears_attachment_witness :
    (∃ r2, (documentsAPI.update "d2"
        { titleOnly "Lamp" with imageChanged := true, deleteImage := true }
        twoDocs).2.documents.find? (fun x => decide (x.id = "d2")) = some r2 ∧
      r2.imageUrl = some "" ∧ r2.imageFileId = some "") ∧
    (documentsAPI.update "d2"
        { titleOnly "Lamp" with imageChanged := true, deleteImage := true } twoDocs).2.files
      = twoDocs.files :=
  ⟨((update_clears_attachment "d2"
      { titleOnly "Lamp" with imageChanged := true, deleteImage := true } twoDocs _ _ alice lamp
      rfl rfl rfl rfl rfl).1 rfl).2.2 _ _ rfl,
   ((update_clears_attachment "d2"
      { titleOnly "Lamp" with imageChanged := true, deleteImage := true } twoDocs _ _ alice lamp
      rfl rfl rfl rfl rfl).1 rfl).2.1⟩

/-- C13 fails as stated: a patch with `imageChanged` true, no image and
`deleteImage` false leaves the stored `imageUrl` and `imageFileId` of Alice's
record `d2` as they were. -/
theorem update_without_deleteImage_keeps_attachment :
    (documentsAPI.update "d2" { titleOnly "Lamp" with imageChanged := true } twoDocs).1
      = .ok (mapDocument { lamp with title := some "Lamp", store := some "",
                                     expirationDate := some "", notes := some "" }) ∧
    (documentsAPI.update "d2"
        { titleOnly "Lamp" with imageChanged := true } twoDocs).2.documents
      = [fridge, { lamp with title := some "Lamp", store := some "",
                             expirationDate := some "", notes := some "" }] ∧
    lamp.imageUrl = some (viewUrl "f9") ∧ lamp.imageFileId = some "f9" ∧
    viewUrl "f9" ≠ "" := by
  refine ⟨rfl, rfl, rfl, rfl, by decide⟩

/-- C14. For an owned record and a patch with `imageChanged` true and an image:
the upload is run once, after the two reads.  If it throws `e`, `update` throws
`e`, the collection is unchanged and the calls made are the two reads,
`getInfoAsync` and at most one `createFile`; no `updateDocument`.  If it
succeeds with file id `fid`, the calls made are the two reads, `getInfoAsync`,
one `createFile` and one `updateDocument` whose payload has `imageUrl` equal to
the view URL of `fid` and `imageFileId` equal to `fid`; and when that call
succeeds the stored record has these two values, whatever it had before. -/
theorem update_replaces_attachment (id : String) (data : DocData) (w w1 w2 : World)
    (u : User) (r : RawDoc) (img : ImageAsset) (hu : account.get w = (.ok u, w1))
    (hr : databases.getDocument id w1 = (.ok r, w2)) (hown : r.userId = some u.id)
    (hic : data.imageChanged = true) (himg : data.image = some img) :
    (∀ e w3, uploadImageIfNeeded (some img) w2 = (.error e, w3) →
      documentsAPI.update id data w = (.error e, w3) ∧ w3.documents = w.documents ∧
      (w3.log = w.log ++ [Call.accountGet, Call.getDocument id, Call.getInfoAsync img.uri] ∨
        ∃ fid, w3.log = w.log ++
          [Call.accountGet, Call.getDocument id, Call.getInfoAsync img.uri,
           Call.createFile APPWRITE_BUCKET_ID fid
             (fileOf img (w.localFiles.lookup img.uri))])) ∧
    (∀ m w3, uploadImageIfNeeded (some img) w2 = (.ok m, w3) →
      ∃ fid, m = some ⟨fid, viewUrl fid⟩ ∧
        (documentsAPI.update id data w).2.log = w.log ++
          [Call.accountGet, Call.getDocument id, Call.getInfoAsync img.uri,
           Call.createFile APPWRITE_BUCKET_ID fid (fileOf img (w.localFiles.lookup img.uri)),
           Call.updateDocument id (updatePayload data (some (viewUrl fid), some fid))] ∧
        (∀ d w4, documentsAPI.update id data w = (.ok d, w4) →
          ∃ r2, w4.documents.find? (fun x => decide (x.id = id)) = some r2 ∧
            r2.imageUrl = some (viewUrl fid) ∧ r2.imageFileId = some fid)) := by
  obtain ⟨hlog, hfiles, hdocs, -⟩ := after_reads id w w1 w2 u r hu hr
  have hmain := update_owned id data w w1 w2 u r hu hr hown
  have hlf : w2.localFiles = w.localFiles := by
    have e1 : w1 = w.next .accountGet := by rw [← account_get_snd, hu]
    have e2 : w2 = w1.next (.getDocument id) := by rw [← getDocument_snd, hr]
    rw [e2, e1]; rfl
  constructor
  · intro e w3 hup
    have hf : imageFields data w2 = (.error e, w3) := by
      simp [imageFields, hic, himg, hup]
    rw [hf] at hmain
    obtain ⟨hl, -, hd⟩ := upload_error img w2 w3 e hup
    refine ⟨hmain, by rw [hd, hdocs], ?_⟩
    rw [hlf] at hl
    rcases hl with hl | ⟨fid, hl⟩
    · left; rw [hl, hlog]; simp
    · right; exact ⟨fid, by rw [hl, hlog]; simp⟩
  · intro m w3 hup
    obtain ⟨fid, hm, hl, -, -, -⟩ := upload_ok img w2 w3 m hup
    have hf : imageFields data w2 = (.ok (some (viewUrl fid), some fid), w3) := by
      simp [imageFields, hic, himg, hup, hm, jsOr_empty]
    rw [hf] at hmain
    simp only at hmain
    have hs := updateDocument_snd_fields id
      (updatePayload data (some (viewUrl fid), some fid)) w3
    refine ⟨fid, hm, ?_, ?_⟩
    · rw [hmain]
      simp [hs.1, hl, hlog, hlf]
    · intro d w4 hupd
      obtain ⟨-, hfind, -⟩ := update_ok id data w w1 w2 w3 w4 u r
        (some (viewUrl fid), some fid) d hu hr hown hf hupd
      exact ⟨_, hfind, rfl, rfl⟩

theorem update_replaces_attachment_witness :
    ∃ fid, (some ⟨"n1", viewUrl "n1"⟩ : Option ImageMeta) = some ⟨fid, viewUrl fid⟩ ∧
      (documentsAPI.update "d2"
          { titleOnly "Lamp" with imageChanged := true, image := some photo } twoDocs).2.log
        = twoDocs.log ++
          [Call.accountGet, Call.getDocument "d2", Call.getInfoAsync photo.uri,
           Call.createFile APPWRITE_BUCKET_ID fid
             (fileOf photo (twoDocs.localFiles.lookup photo.uri)),
           Call.updateDocument "d2"
             (updatePayload { titleOnly "Lamp" with imageChanged := true, image := some photo }
               (some (viewUrl fid), some fid))] ∧
      (∀ d w4, documentsAPI.update "d2"
          { titleOnly "Lamp" with imageChanged := true, image := some photo } twoDocs
            = (.ok d, w4) →
        ∃ r2, w4.documents.find? (fun x => decide (x.id = "d2")) = some r2 ∧
          r2.imageUrl = some (viewUrl fid) ∧ r2.imageFileId = some fid) :=
  (update_replaces_attachment "d2"
    { titleOnly "Lamp" with imageChanged := true, image := some photo } twoDocs _ _ alice lamp
    photo rfl rfl rfl rfl rfl).2 _ _ rfl

/-! ## The attachment invariant -/

theorem viewUrl_ne_empty (fileId : String) : viewUrl fileId ≠ "" := by
  intro h
  have hl := congrArg String.length h
  have he : APPWRITE_ENDPOINT.length = 32 := by decide
  simp only [viewUrl, String.length_append, he] at hl
  have h0 : ("" : String).length = 0 := rfl
  omega

theorem validId_ne_empty (id : String) (h : validId id = true) : id ≠ "" := by
  intro he
  subst he
  simp [validId] at h

/-- The three values the `imageFields` object can have. -/
theorem imageFields_ok (data : DocData) (w w3 : World) (fields : Option String × Option String)
    (h : imageFields data w = (.ok fields, w3)) :
    fields = (none, none) ∨ fields = (some "", some "") ∨
    ∃ fid, fid ≠ "" ∧ fields = (some (viewUrl fid), some fid) := by
  unfold imageFields at h
  split at h
  · split at h
    · rename_i hsome
      obtain ⟨img, himg⟩ := Option.isSome_iff_exists.mp hsome
      rw [himg] at h
      rcases hup : uploadImageIfNeeded (some img) w with ⟨x, w1⟩
      rw [hup] at h
      cases x with
      | error e => simp at h
      | ok m =>
        obtain ⟨fid, hm, -, -, -, hv⟩ := upload_ok img w w1 m hup
        subst hm
        simp only [Option.map_some', jsOr_empty, Option.getD_some, Prod.mk.injEq,
          Except.ok.injEq] at h
        right; right
        exact ⟨fid, validId_ne_empty fid hv, h.1.symm⟩
    · split at h
      · simp only [Prod.mk.injEq, Except.ok.injEq] at h
        right; left; exact h.1.symm
      · simp only [Prod.mk.injEq, Except.ok.injEq] at h
        left; exact h.1.symm
  · simp only [Prod.mk.injEq, Except.ok.injEq] at h
    left; exact h.1.symm

/-- C11.  When `account.get()` resolves to `u`: the record a successful
`documentsAPI.create` writes has `imageUrl` and `imageFileId` both equal to the
empty string or both non-empty, for every draft; a successful
`documentsAPI.update` of a record that has both populated or both not leaves a
stored record of which the same is true, for every patch; and if that was true
of every stored record before the update, it is true of every stored record
after it.  (A file the bucket has stored has a well-formed, hence non-empty,
id.) -/
theorem attachment_fields_consistent (data : DocData) (w w1 : World) (u : User)
    (hu : account.get w = (.ok u, w1)) :
    (∀ d w3, documentsAPI.create data w = (.ok d, w3) →
      ∃ r, w3.documents = w.documents ++ [r] ∧ attachmentConsistent r = true ∧
        ((r.imageUrl = some "" ∧ r.imageFileId = some "") ∨
         ∃ a b, r.imageUrl = some a ∧ r.imageFileId = some b ∧ a ≠ "" ∧ b ≠ "")) ∧
    (∀ id w2 r d w4, databases.getDocument id w1 = (.ok r, w2) →
      documentsAPI.update id data w = (.ok d, w4) →
      (attachmentConsistent r = true →
        ∃ r2, w4.documents.find? (fun x => decide (x.id = id)) = some r2 ∧
          attachmentConsistent r2 = true) ∧
      ((∀ x ∈ w.documents, attachmentConsistent x = true) →
        ∀ x ∈ w4.documents, attachmentConsistent x = true)) := by
  constructor
  · intro d w3 hc
    obtain ⟨imageMeta, w2, hmeta, -, hdocs, -⟩ := create_ok data w w1 w3 u d hu hc
    refine ⟨_, hdocs, ?_⟩
    cases imageMeta with
    | none =>
      refine ⟨by simp [attachmentConsistent, RawDoc.ofPayload, createPayload, jsOr, truthy], ?_⟩
      left
      simp [RawDoc.ofPayload, createPayload, jsOr]
    | some m =>
      have hm : m.imageUrl ≠ "" ∧ m.fileId ≠ "" := by
        unfold createImageMeta at hmeta
        split at hmeta
        · rename_i hsome
          obtain ⟨img, himg⟩ := Option.isSome_iff_exists.mp hsome
          rw [himg] at hmeta
          obtain ⟨fid, hm, -, -, -, hv⟩ := upload_ok img w1 w2 (some m) hmeta
          simp only [Option.some.injEq] at hm
          rw [hm]
          exact ⟨viewUrl_ne_empty fid, validId_ne_empty fid hv⟩
        · simp at hmeta
      refine ⟨by simp [attachmentConsistent, RawDoc.ofPayload, createPayload, jsOr_empty,
        truthy, hm.1, hm.2], ?_⟩
      right
      exact ⟨m.imageUrl, m.fileId, by simp [RawDoc.ofPayload, createPayload, jsOr_empty],
        by simp [RawDoc.ofPayload, createPayload, jsOr_empty], hm.1, hm.2⟩
  · intro id w2 r d w4 hr hup
    have hown : r.userId = some u.id := by
      by_contra hne
      unfold documentsAPI.update at hup
      simp [hu, hr, hne] at hup
    have hmain := update_owned id data w w1 w2 u r hu hr hown
    rcases hf : imageFields data w2 with ⟨f, w3⟩
    cases f with
    | error e =>
      rw [hf] at hmain
      rw [hmain] at hup
      simp at hup
    | ok fields =>
      obtain ⟨-, hfind, hdocs⟩ :=
        update_ok id data w w1 w2 w3 w4 u r fields d hu hr hown hf hup
      have hpatch : ∀ y : RawDoc, attachmentConsistent y = true →
          attachmentConsistent (y.patch (updatePayload data fields)) = true := by
        intro y hyc
        rcases imageFields_ok data w2 w3 fields hf with h | h | ⟨fid, hfid, h⟩
        · subst h
          simpa [attachmentConsistent, RawDoc.patch, updatePayload] using hyc
        · subst h
          simp [attachmentConsistent, RawDoc.patch, updatePayload, truthy]
        · subst h
          simp [attachmentConsistent, RawDoc.patch, updatePayload, truthy, hfid,
            viewUrl_ne_empty fid]
      refine ⟨fun hrc => ⟨_, hfind, hpatch r hrc⟩, ?_⟩
      intro hinv x hx
      rw [hdocs] at hx
      obtain ⟨y, hy, rfl⟩ := List.mem_map.mp hx
      split
      · exact hpatch y (hinv y hy)
      · exact hinv y hy

theorem attachment_fields_consistent_witness :
    (∃ r, (documentsAPI.create untitled (worldOf alice)).2.documents
        = (worldOf alice).documents ++ [r] ∧ attachmentConsistent r = true ∧
      ((r.imageUrl = some "" ∧ r.imageFileId = some "") ∨
       ∃ a b, r.imageUrl = some a ∧ r.imageFileId = some b ∧ a ≠ "" ∧ b ≠ "")) ∧
    (∃ r2, (documentsAPI.update "d2"
        { titleOnly "Lamp" with imageChanged := true, image := some photo }
        twoDocs).2.documents.find? (fun x => decide (x.id = "d2")) = some r2 ∧
      attachmentConsistent r2 = true) :=
  ⟨(attachment_fields_consistent untitled (worldOf alice) _ alice rfl).1 _ _ rfl,
   ((attachment_fields_consistent
      { titleOnly "Lamp" with imageChanged := true, image := some photo } twoDocs _ alice
      rfl).2 "d2" _ lamp _ _ rfl rfl).1 rfl⟩

/-! ## The scalar fields of an update -/

/-- C15, as the code has it.  For an owned record, once `imageFields` is
built, `documentsAPI.update` makes one `updateDocument` call.  Its payload has
`store`, `expirationDate` and `notes` equal to the patch's value, or to the
empty string when that is empty or absent; `title` and `categoryId` are the
patch's values as they are, so they are missing from the payload when the patch
has none.  After a successful update the stored `store`, `expirationDate` and
`notes` are those of the payload, and the stored `title` and `categoryId` are
the patch's when it has them and the previous ones otherwise. -/
theorem update_payload_scalars (id : String) (data : DocData) (w w1 w2 w3 : World)
    (u : User) (r : RawDoc) (fields : Option String × Option String)
    (hu : account.get w = (.ok u, w1)) (hr : databases.getDocument id w1 = (.ok r, w2))
    (hown : r.userId = some u.id) (hf : imageFields data w2 = (.ok fields, w3)) :
    (documentsAPI.update id data w).2.log
      = w3.log ++ [Call.updateDocument id (updatePayload data fields)] ∧
    (updatePayload data fields).store = some (data.store.getD "") ∧
    (updatePayload data fields).expirationDate = some (data.expirationDate.getD "") ∧
    (updatePayload data fields).notes = some (data.notes.getD "") ∧
    (updatePayload data fields).title = data.title ∧
    (updatePayload data fields).categoryId = data.categoryId ∧
    (∀ d w4, documentsAPI.update id data w = (.ok d, w4) →
      ∃ r2, w4.documents.find? (fun x => decide (x.id = id)) = some r2 ∧
        r2.store = some (data.store.getD "") ∧
        r2.expirationDate = some (data.expirationDate.getD "") ∧
        r2.notes = some (data.notes.getD "") ∧
        (∀ t, data.title = some t → r2.title = some t) ∧
        (data.title = none → r2.title = r.title) ∧
        (∀ c, data.categoryId = some c → r2.categoryId = some c) ∧
        (data.categoryId = none → r2.categoryId = r.categoryId)) := by
  have hmain := update_owned id data w w1 w2 u r hu hr hown
  rw [hf] at hmain
  simp only at hmain
  have hs := updateDocument_snd_fields id (updatePayload data fields) w3
  refine ⟨?_, ?_, ?_, ?_, rfl, rfl, ?_⟩
  · rw [hmain]; exact hs.1
  · simp [updatePayload, jsOr_empty]
  · simp [updatePayload, jsOr_empty]
  · simp [updatePayload, jsOr_empty]
  · intro d w4 hup
    obtain ⟨-, hfind, -⟩ := update_ok id data w w1 w2 w3 w4 u r fields d hu hr hown hf hup
    refine ⟨_, hfind, ?_, ?_, ?_, ?_, ?_, ?_, ?_⟩
    · simp [RawDoc.patch, updatePayload, jsOr_empty]
    · simp [RawDoc.patch, updatePayload, jsOr_empty]
    · simp [RawDoc.patch, updatePayload, jsOr_empty]
    · intro t ht
      simp [RawDoc.patch, updatePayload, ht]
    · intro ht
      simp [RawDoc.patch, updatePayload, ht]
    · intro c hc
      simp [RawDoc.patch, updatePayload, hc]
    · intro hc
      simp [RawDoc.patch, updatePayload, hc]

theorem update_payload_scalars_witness :
    (documentsAPI.update "d1" (titleOnly "T") (worldOf alice)).2.log
      = ((worldOf alice).next .accountGet |>.next (.getDocument "d1")).log ++
          [Call.updateDocument "d1" (updatePayload (titleOnly "T") (none, none))] ∧
    (updatePayload (titleOnly "T") (none, none)).store = some ((titleOnly "T").store.getD "") ∧
    (updatePayload (titleOnly "T") (none, none)).categoryId = (titleOnly "T").categoryId := by
  have h := update_payload_scalars "d1" (titleOnly "T") (worldOf alice) _ _ _ alice fridge
    (none, none) rfl rfl rfl rfl
  exact ⟨h.1, h.2.1, h.2.2.2.2.2.1⟩

/-- C15 fails as stated: for a patch without `title` and `categoryId` the
payload of the `updateDocument` call has neither of them, not the empty
string. -/
theorem update_payload_without_title :
    (documentsAPI.update "d1" { titleOnly "T" with title := none } (worldOf alice)).2.log
      = [Call.accountGet, Call.getDocument "d1",
         Call.updateDocument "d1"
           { userId := none, title := none, categoryId := none, store := some "",
             expirationDate := some "", notes := some "", imageUrl := none,
             imageFileId := none }] ∧
    (none : Option String) ≠ some "" := by
  refine ⟨rfl, by decide⟩

/-- C16, as the code has it.  After a successful
`documentsAPI.update(id, { title: T })` of an owned record `r`, a
`documentsAPI.getById(id)` by the same user, answered by the backend, resolves
to the document the update resolved to: its `title` is `T`, its `categoryId`,
`categoryName`, `uploadDate` and `imageUrl` are those of `r`, and its `store`,
`expirationDate` and `notes` are the empty string. -/
theorem update_title_then_getById (id T : String) (w w1 w2 w4 w5 : World) (u : User)
    (r : RawDoc) (d : Document)
    (hu : account.get w = (.ok u, w1)) (hr : databases.getDocument id w1 = (.ok r, w2))
    (hown : r.userId = some u.id)
    (hup : documentsAPI.update id (titleOnly T) w = (.ok d, w4))
    (hu2 : account.get w4 = (.ok u, w5)) (hnf : w5.fault = none) :
    (documentsAPI.getById id w4).1 = .ok d ∧
    d.title = some T ∧ d.categoryId = r.categoryId ∧
    d.categoryName = (mapDocument r).categoryName ∧
    d.uploadDate = (mapDocument r).uploadDate ∧
    d.imageUrl = (mapDocument r).imageUrl ∧
    d.store = some "" ∧ d.expirationDate = some "" ∧ d.notes = some "" := by
  have hf : imageFields (titleOnly T) w2 = (.ok (none, none), w2) := by
    simp [imageFields, titleOnly]
  obtain ⟨hd, hfind, -⟩ :=
    update_ok id (titleOnly T) w w1 w2 w2 w4 u r (none, none) d hu hr hown hf hup
  have e5 : w5 = w4.next .accountGet := by rw [← account_get_snd, hu2]
  have hfind5 : w5.documents.find? (fun x => decide (x.id = id))
      = some (r.patch (updatePayload (titleOnly T) (none, none))) := by
    rw [e5]; exact hfind
  have hget : databases.getDocument id w5
      = (.ok (r.patch (updatePayload (titleOnly T) (none, none))), w5.next (.getDocument id)) := by
    unfold databases.getDocument
    simp [hnf, hfind5]
  have huid : (r.patch (updatePayload (titleOnly T) (none, none))).userId = some u.id := by
    simp [RawDoc.patch, updatePayload, hown]
  refine ⟨?_, ?_, ?_, ?_, ?_, ?_, ?_, ?_, ?_⟩
  · unfold documentsAPI.getById
    simp [hu2, hget, huid, hd]
  all_goals
    rw [hd]
    simp [mapDocument, RawDoc.patch, updatePayload, titleOnly, jsOr]

theorem update_title_then_getById_witness :
    (documentsAPI.getById "d1" (documentsAPI.update "d1" (titleOnly "T") (worldOf alice)).2).1
      = .ok { mapDocument fridge with title := some "T", store := some "",
                                      expirationDate := some "", notes := some "" } :=
  (update_title_then_getById "d1" "T" (worldOf alice) _ _ _ _ alice fridge _ rfl rfl rfl rfl
    rfl rfl).1

/-- C16 fails as stated: Alice's record `d1` has store `Mega Store` and
expiration date `2025-01-01`; after `update('d1', { title: 'T' })` the document
`getById('d1')` resolves to has an empty store and an empty expiration date. -/
theorem update_title_clears_store :
    (documentsAPI.getById "d1" (documentsAPI.update "d1" (titleOnly "T") (worldOf alice)).2).1
      = .ok { id := "d1", title := some "T", categoryId := some "appliances",
              categoryName := "Appliances", store := some "", uploadDate := "2024-02-01",
              expirationDate := some "", notes := some "", imageUrl := none } ∧
    (documentsAPI.getById "d1" (worldOf alice)).1
      = .ok { id := "d1", title := some "Fridge warranty", categoryId := some "appliances",
              categoryName := "Appliances", store := some "Mega Store",
              uploadDate := "2024-02-01", expirationDate := some "2025-01-01",
              notes := some "", imageUrl := none } := by
  exact ⟨rfl, rfl⟩

/-! ## Deleting a document -/

theorem deleteDocument_ok (id : String) (w w1 : World)
    (h : databases.deleteDocument id w = (.ok (), w1)) :
    w1.documents = w.documents.filter (fun d => decide (d.id ≠ id)) ∧ w1.files = w.files := by
  unfold databases.deleteDocument at h
  split at h
  · simp at h
  · split at h
    · simp only [Prod.mk.injEq, Except.ok.injEq, true_and] at h
      subst h
      exact ⟨rfl, rfl⟩
    · simp at h

/-- A successful `documentsAPI.delete`: the collection has lost the records
with that id and nothing else; the bucket is as before. -/
theorem delete_ok (id : String) (w w3 : World) (h : documentsAPI.delete id w = (.ok (), w3)) :
    w3.documents = w.documents.filter (fun d => decide (d.id ≠ id)) ∧ w3.files = w.files := by
  unfold documentsAPI.delete at h
  rcases hu : account.get w with ⟨x, w1⟩
  rw [hu] at h
  cases x with
  | error e => simp at h
  | ok u =>
    simp only at h
    rcases hr : databases.getDocument id w1 with ⟨y, w2⟩
    rw [hr] at h
    cases y with
    | error e => simp at h
    | ok r =>
      simp only at h
      obtain ⟨-, hfiles, hdocs, -⟩ := after_reads id w w1 w2 u r hu hr
      split at h
      · simp at h
      · rcases hd : databases.deleteDocument id w2 with ⟨z, w4⟩
        rw [hd] at h
        cases z with
        | error e => simp at h
        | ok v =>
          simp only [Prod.mk.injEq, true_and] at h
          subst h
          obtain ⟨h1, h2⟩ := deleteDocument_ok id w2 w4 hd
          exact ⟨by rw [h1, hdocs], by rw [h2, hfiles]⟩

/-- C17. After a successful `documentsAPI.delete(id)` no stored record has that
id.  A following `documentsAPI.getById(id)`, with the backend answering both of
its calls, fails with the backend's not-found error, which is not the
`Access denied` error; and what a following `documentsAPI.getAll` resolves to
contains no document with that id. -/
theorem delete_then_not_found (id : String) (w w3 w4 : World) (u : User)
    (hdel : documentsAPI.delete id w = (.ok (), w3))
    (hu : account.get w3 = (.ok u, w4)) (hnf : w4.fault = none) :
    (∀ x ∈ w3.documents, x.id ≠ id) ∧
    documentsAPI.getById id w3 = (.error documentNotFound, w4.next (.getDocument id)) ∧
    documentNotFound ≠ accessDenied ∧
    (∃ ds : List RawDoc, (documentsAPI.getAll w3).1 = .ok (ds.map mapDocument) ∧
      ∀ x ∈ ds.map mapDocument, x.id ≠ id) := by
  obtain ⟨hdocs, -⟩ := delete_ok id w w3 hdel
  have e4 : w4 = w3.next .accountGet := by rw [← account_get_snd, hu]
  have habsent : ∀ x ∈ w3.documents, x.id ≠ id := by
    intro x hx
    rw [hdocs, List.mem_filter] at hx
    simpa using hx.2
  have hfind : w4.documents.find? (fun d => decide (d.id = id)) = none := by
    rw [e4]
    show w3.documents.find? (fun d => decide (d.id = id)) = none
    rw [List.find?_eq_none]
    intro x hx
    simpa using habsent x hx
  refine ⟨habsent, ?_, by decide, ?_⟩
  · unfold documentsAPI.getById databases.getDocument
    simp [hu, hnf, hfind]
  · have hl : databases.listDocuments [Query.equal .userId u.id, Query.orderDesc .createdAt] w4
        = (.ok (([Query.equal .userId u.id, Query.orderDesc .createdAt].foldr Query.apply
            w4.documents).take defaultLimit), w4.next (.listDocuments
              [Query.equal .userId u.id, Query.orderDesc .createdAt])) := by
      unfold databases.listDocuments
      simp [hnf]
    refine ⟨([Query.equal .userId u.id, Query.orderDesc .createdAt].foldr Query.apply
      w4.documents).take defaultLimit, by unfold documentsAPI.getAll; simp [hu, hl], ?_⟩
    intro x hx
    obtain ⟨y, hy, rfl⟩ := List.mem_map.mp hx
    have hy2 := (getAll_query_perm u.id w4.documents).subset (List.mem_of_mem_take hy)
    rw [e4] at hy2
    exact habsent y (List.mem_of_mem_filter hy2)

theorem delete_then_not_found_witness :
    (∀ x ∈ (documentsAPI.delete "d1" twoDocs).2.documents, x.id ≠ "d1") ∧
    documentsAPI.getById "d1" (documentsAPI.delete "d1" twoDocs).2
      = (.error documentNotFound,
         ((documentsAPI.delete "d1" twoDocs).2.next .accountGet).next (.getDocument "d1")) ∧
    documentNotFound ≠ accessDenied ∧
    (∃ ds : List RawDoc, (documentsAPI.getAll (documentsAPI.delete "d1" twoDocs).2).1
        = .ok (ds.map mapDocument) ∧
      ∀ x ∈ ds.map mapDocument, x.id ≠ "d1") :=
  delete_then_not_found "d1" twoDocs _ _ alice rfl rfl rfl

/-! ## Sorting -/

/-- C18 on the code: the `sortBy` and `sortOrder` given to `loadData` do not
reach the backend.  Whatever they are, the query sent is the equality on
`userId` and the descending order on `$createdAt`; asked for the titles in
ascending order, Alice gets `Zebra lamp` before `Fridge warranty`, and asked
for the expiration dates in ascending order she gets `2026-06-30` before
`2025-01-01`. -/
theorem loadData_ignores_sort :
    (∀ sortBy sortOrder st w,
      loadData sortBy sortOrder st w = loadData .uploadDate .DESC st w) ∧
    (loadData .title .ASC ⟨[], [], [], true, false⟩ twoDocs).2.log
      = [Call.accountGet,
         Call.listDocuments [Query.equal .userId "u-alice", Query.orderDesc .createdAt]] ∧
    (loadData .title .ASC ⟨[], [], [], true, false⟩ twoDocs).1.documents.map (fun d => d.title)
      = [some "Zebra lamp", some "Fridge warranty"] ∧
    (loadData .expirationDate .ASC ⟨[], [], [], true, false⟩ twoDocs).1.documents.map
        (fun d => d.expirationDate)
      = [some "2026-06-30", some "2025-01-01"] ∧
    ¬ ("2026-06-30".toList ≤ "2025-01-01".toList) := by
  refine ⟨fun _ _ _ _ => rfl, rfl, rfl, rfl, by decide⟩

/-! ## Signing in -/

theorem createEmailPasswordSession_log (email password : String) (w : World) :
    (account.createEmailPasswordSession email password w).2.log
      = w.log ++ [.createEmailPasswordSession email password] := by
  unfold account.createEmailPasswordSession
  split
  · rfl
  · split
    · rfl
    · split <;> rfl

/-- C19. When the first `createEmailPasswordSession` call of `authAPI.login`
throws an error whose lower-cased message contains `rate limit`, login pauses
for 1500 ms and makes the call once more: the calls made are exactly the first
call, the pause and the second call.  If the second call succeeds login
resolves to the session token; if it throws, login throws that error. -/
theorem login_rate_limit_retry (lower : String → String) (email password : String)
    (w w1 : World) (e : JSError)
    (h1 : account.createEmailPasswordSession email password w = (.error e, w1))
    (hrl : includes (lower e.message) "rate limit" = true) :
    (authAPI.login lower email password w).2.log = w.log ++
      [Call.createEmailPasswordSession email password, Call.setTimeout 1500,
       Call.createEmailPasswordSession email password] ∧
    (∀ w2, account.createEmailPasswordSession email password (w1.pause 1500) = (.ok (), w2) →
      authAPI.login lower email password w = (.ok "appwrite-session", w2)) ∧
    (∀ e2 w2,
      account.createEmailPasswordSession email password (w1.pause 1500) = (.error e2, w2) →
      authAPI.login lower email password w = (.error e2, w2)) := by
  have hl1 : w1.log = w.log ++ [Call.createEmailPasswordSession email password] := by
    have := createEmailPasswordSession_log email password w
    rw [h1] at this
    exact this
  have hl2 := createEmailPasswordSession_log email password (w1.pause 1500)
  have hlogin : authAPI.login lower email password w =
      match account.createEmailPasswordSession email password (w1.pause 1500) with
      | (.ok _, w2) => (.ok sessionToken, w2)
      | (.error err2, w2) => (.error err2, w2) := by
    unfold authAPI.login
    simp only [h1, jsOr_empty, Option.getD_some, hrl, if_true]
  refine ⟨?_, ?_, ?_⟩
  · rw [hlogin]
    rcases hs : account.createEmailPasswordSession email password (w1.pause 1500) with ⟨x, w2⟩
    rw [hs] at hl2
    have hw2 : w2.log = w.log ++
        [Call.createEmailPasswordSession email password, Call.setTimeout 1500,
         Call.createEmailPasswordSession email password] := by
      simpa [World.pause, hl1] using hl2
    cases x <;> exact hw2
  · intro w2 hs
    rw [hlogin, hs]
    rfl
  · intro e2 w2 hs
    rw [hlogin, hs]

theorem login_rate_limit_retry_witness :
    (authAPI.login lowerASCII "alice@example.org" "correct horse" throttled).2.log
      = throttled.log ++
        [Call.createEmailPasswordSession "alice@example.org" "correct horse",
         Call.setTimeout 1500,
         Call.createEmailPasswordSession "alice@example.org" "correct horse"] ∧
    (authAPI.login lowerASCII "alice@example.org" "correct horse" throttled).1
      = .ok "appwrite-session" ∧
    (authAPI.login lowerASCII "alice@example.org" "wrong" throttled).1
      = .error invalidCredentials := by
  have h := login_rate_limit_retry lowerASCII "alice@example.org" "correct horse" throttled _
    ⟨"Rate limit for the current endpoint has been exceeded."⟩ rfl (by decide)
  have h2 := login_rate_limit_retry lowerASCII "alice@example.org" "wrong" throttled _
    ⟨"Rate limit for the current endpoint has been exceeded."⟩ rfl (by decide)
  exact ⟨h.1, congrArg Prod.fst (h.2.1 _ rfl), congrArg Prod.fst (h2.2.2 _ _ rfl)⟩

/-- C20. When the `createEmailPasswordSession` call of `authAPI.login` throws
an error whose lower-cased message contains `session is active` (and is not a
rate-limit message), login resolves to the session token in the world that call
left: that call is the only one made. -/
theorem login_session_active (lower : String → String) (email password : String)
    (w w1 : World) (e : JSError)
    (h1 : account.createEmailPasswordSession email password w = (.error e, w1))
    (hsa : includes (lower e.message) "session is active" = true)
    (hrl : includes (lower e.message) "rate limit" = false) :
    authAPI.login lower email password w = (.ok "appwrite-session", w1) ∧
    (authAPI.login lower email password w).2.log
      = w.log ++ [Call.createEmailPasswordSession email password] := by
  have hl1 : w1.log = w.log ++ [Call.createEmailPasswordSession email password] := by
    have := createEmailPasswordSession_log email password w
    rw [h1] at this
    exact this
  have hlogin : authAPI.login lower email password w = (.ok "appwrite-session", w1) := by
    unfold authAPI.login
    simp only [h1, jsOr_empty, Option.getD_some, hrl, hsa, if_true, Bool.false_eq_true,
      if_false]
    rfl
  exact ⟨hlogin, by rw [hlogin]; exact hl1⟩

theorem login_session_active_witness :
    authAPI.login lowerASCII "alice@example.org" "correct horse" (worldOf alice)
      = (.ok "appwrite-session",
         (worldOf alice).next (.createEmailPasswordSession "alice@example.org" "correct horse")) ∧
    (authAPI.login lowerASCII "alice@example.org" "correct horse" (worldOf alice)).2.log
      = (worldOf alice).log ++
        [Call.createEmailPasswordSession "alice@example.org" "correct horse"] :=
  login_session_active lowerASCII "alice@example.org" "correct horse" (worldOf alice) _
    sessionActive rfl (by decide) (by decide)

theorem login_eq_catch (lower : String → String) (email password : String) (w : World) :
    authAPI.login lower email password w =
      match account.createEmailPasswordSession email password w with
      | (.ok _, w1) => (.ok sessionToken, w1)
      | (.error err, w1) => catchAuthError lower email password err w1 := rfl

theorem createEmailPasswordSession_ok (email password : String) (w w1 : World)
    (h : account.createEmailPasswordSession email password w = (.ok (), w1)) :
    w1.session ≠ none := by
  unfold account.createEmailPasswordSession at h
  split at h
  · simp at h
  · split at h
    · simp at h
    · split at h
      · simp at h
      · simp only [Prod.mk.injEq, true_and] at h
        rw [← h]
        simp

/-- The ways the `catch` block can resolve to a token. -/
theorem catchAuthError_ok (lower : String → String) (email password : String) (err : JSError)
    (w w2 : World) (t : String)
    (h : catchAuthError lower email password err w = (.ok t, w2)) :
    t = sessionToken ∧
    ((includes (lower err.message) "rate limit" = true ∧
        account.createEmailPasswordSession email password (w.pause 1500) = (.ok (), w2)) ∨
     (includes (lower err.message) "rate limit" = false ∧
        includes (lower err.message) "session is active" = true ∧ w2 = w)) := by
  unfold catchAuthError at h
  simp only [jsOr_empty, Option.getD_some] at h
  by_cases hrl : includes (lower err.message) "rate limit" = true
  · simp only [hrl, if_true] at h
    rcases hs : account.createEmailPasswordSession email password (w.pause 1500) with ⟨x, w3⟩
    rw [hs] at h
    cases x with
    | error e => simp at h
    | ok v =>
      simp only [Prod.mk.injEq, Except.ok.injEq] at h
      exact ⟨h.1.symm, Or.inl ⟨hrl, by rw [← h.2]⟩⟩
  · have hrl2 : includes (lower err.message) "rate limit" = false := by simpa using hrl
    simp only [hrl2, Bool.false_eq_true, if_false] at h
    by_cases hsa : includes (lower err.message) "session is active" = true
    · simp only [hsa, if_true, Prod.mk.injEq, Except.ok.injEq] at h
      exact ⟨h.1.symm, Or.inr ⟨hrl2, hsa, h.2.symm⟩⟩
    · simp [hsa] at h

/-- C21. When the first `createEmailPasswordSession` call of `authAPI.login`
throws an error `e` whose lower-cased message contains neither `rate limit` nor
`session is active`, login throws `e` itself, in the world that call left: no
pause, no second call, no token.  And whenever login resolves, it resolves to
the token and either the first call succeeded, or the first call threw a
rate-limit error and the second call succeeded (in both cases a session is
active afterwards), or the first call threw a session-is-active error. -/
theorem login_other_error (lower : String → String) (email password : String) :
    (∀ w w1 e, account.createEmailPasswordSession email password w = (.error e, w1) →
      includes (lower e.message) "rate limit" = false →
      includes (lower e.message) "session is active" = false →
      authAPI.login lower email password w = (.error e, w1) ∧
      w1.log = w.log ++ [Call.createEmailPasswordSession email password]) ∧
    (∀ w t w2, authAPI.login lower email password w = (.ok t, w2) →
      t = "appwrite-session" ∧
      ((account.createEmailPasswordSession email password w = (.ok (), w2) ∧
          w2.session ≠ none) ∨
       (∃ e w1, account.createEmailPasswordSession email password w = (.error e, w1) ∧
          includes (lower e.message) "rate limit" = true ∧
          account.createEmailPasswordSession email password (w1.pause 1500) = (.ok (), w2) ∧
          w2.session ≠ none) ∨
       (∃ e, account.createEmailPasswordSession email password w = (.error e, w2) ∧
          includes (lower e.message) "session is active" = true))) := by
  constructor
  · intro w w1 e h1 hrl hsa
    constructor
    · rw [login_eq_catch, h1]
      simp [catchAuthError, jsOr_empty, hrl, hsa]
    · have := createEmailPasswordSession_log email password w
      rw [h1] at this
      exact this
  · intro w t w2 h
    rw [login_eq_catch] at h
    rcases hs : account.createEmailPasswordSession email password w with ⟨x, w1⟩
    rw [hs] at h
    cases x with
    | ok v =>
      simp only [Prod.mk.injEq, Except.ok.injEq] at h
      obtain ⟨ht, hw⟩ := h
      subst hw
      exact ⟨ht.symm, Or.inl ⟨rfl, createEmailPasswordSession_ok email password w w1 hs⟩⟩
    | error e =>
      simp only at h
      obtain ⟨ht, hc⟩ := catchAuthError_ok lower email password e w1 w2 t h
      refine ⟨ht, Or.inr ?_⟩
      rcases hc with ⟨hrl, h2⟩ | ⟨-, hsa, hw⟩
      · exact Or.inl ⟨e, w1, rfl, hrl, h2,
          createEmailPasswordSession_ok email password _ w2 h2⟩
      · subst hw
        exact Or.inr ⟨e, rfl, hsa⟩

theorem login_other_error_witness :
    authAPI.login lowerASCII "alice@example.org" "wrong" { throttled with faults := [] }
      = (.error invalidCredentials,
         ({ throttled with faults := [] } : World).next
           (.createEmailPasswordSession "alice@example.org" "wrong")) ∧
    (({ throttled with faults := [] } : World).next
        (.createEmailPasswordSession "alice@example.org" "wrong")).log
      = ({ throttled with faults := [] } : World).log ++
          [Call.createEmailPasswordSession "alice@example.org" "wrong"] :=
  (login_other_error lowerASCII "alice@example.org" "wrong").1 { throttled with faults := [] } _
    invalidCredentials rfl (by decide) (by decide)

/-! ## Registering -/

theorem account_create_log (userId email password name : String) (w : World) :
    (account.create userId email password name w).2.log
      = w.log ++ [.accountCreate userId email password name] := by
  unfold account.create
  split
  · rfl
  · split
    · rfl
    · split <;> rfl

/-- C22, as the code has it.  `authAPI.register` calls `account.create` first.
If that succeeds, what follows is exactly `authAPI.login`.  If it throws an
error that is neither a rate-limit nor a session-is-active error, register
throws that error and makes no further call.  But the shared `catch` block also
receives the error of `account.create`: after a rate-limit error register
pauses and calls `createEmailPasswordSession` once, resolving to the token if
that call succeeds and throwing its error otherwise; after a session-is-active
error register resolves to the token.  So a token means that `account.create`
succeeded or threw one of these two errors. -/
theorem register_sequence (lower : String → String) (name email password : String)
    (w : World) :
    (∀ w1, account.create (ID.unique w).1 email password name (ID.unique w).2 = (.ok (), w1) →
      authAPI.register lower name email password w = authAPI.login lower email password w1) ∧
    (∀ e w1,
      account.create (ID.unique w).1 email password name (ID.unique w).2 = (.error e, w1) →
      (includes (lower e.message) "rate limit" = false →
        includes (lower e.message) "session is active" = false →
        authAPI.register lower name email password w = (.error e, w1) ∧
        w1.log = w.log ++ [Call.accountCreate (ID.unique w).1 email password name]) ∧
      (includes (lower e.message) "rate limit" = true →
        (∀ w2, account.createEmailPasswordSession email password (w1.pause 1500)
            = (.ok (), w2) →
          authAPI.register lower name email password w = (.ok "appwrite-session", w2)) ∧
        (∀ e2 w2, account.createEmailPasswordSession email password (w1.pause 1500)
            = (.error e2, w2) →
          authAPI.register lower name email password w = (.error e2, w2))) ∧
      (includes (lower e.message) "rate limit" = false →
        includes (lower e.message) "session is active" = true →
        authAPI.register lower name email password w = (.ok "appwrite-session", w1))) ∧
    (∀ t w2, authAPI.register lower name email password w = (.ok t, w2) →
      (∃ w1, account.create (ID.unique w).1 email password name (ID.unique w).2
          = (.ok (), w1)) ∨
      (∃ e w1, account.create (ID.unique w).1 email password name (ID.unique w).2
          = (.error e, w1) ∧
        (includes (lower e.message) "rate limit" = true ∨
         includes (lower e.message) "session is active" = true))) := by
  refine ⟨?_, ?_, ?_⟩
  · intro w1 h
    unfold authAPI.register
    rw [h, login_eq_catch]
  · intro e w1 h
    have hreg : authAPI.register lower name email password w
        = catchAuthError lower email password e w1 := by
      unfold authAPI.register
      rw [h]
    refine ⟨?_, ?_, ?_⟩
    · intro hrl hsa
      constructor
      · rw [hreg]
        simp [catchAuthError, jsOr_empty, hrl, hsa]
      · have := account_create_log (ID.unique w).1 email password name (ID.unique w).2
        rw [h, unique_log] at this
        exact this
    · intro hrl
      constructor
      · intro w2 hs
        rw [hreg]
        simp only [catchAuthError, jsOr_empty, Option.getD_some, hrl, if_true, hs]
        rfl
      · intro e2 w2 hs
        rw [hreg]
        simp only [catchAuthError, jsOr_empty, Option.getD_some, hrl, if_true, hs]
    · intro hrl hsa
      rw [hreg]
      simp only [catchAuthError, jsOr_empty, Option.getD_some, hrl, hsa, if_true,
        Bool.false_eq_true, if_false]
      rfl
  · intro t w2 h
    rcases hc : account.create (ID.unique w).1 email password name (ID.unique w).2
      with ⟨x, w1⟩
    cases x with
    | ok v => exact Or.inl ⟨w1, rfl⟩
    | error e =>
      right
      refine ⟨e, w1, rfl, ?_⟩
      unfold authAPI.register at h
      rw [hc] at h
      obtain ⟨-, hcase⟩ := catchAuthError_ok lower email password e w1 w2 t h
      rcases hcase with ⟨hrl, -⟩ | ⟨-, hsa, -⟩
      · exact Or.inl hrl
      · exact Or.inr hsa

theorem register_sequence_witness :
    authAPI.register lowerASCII "Bob" "bob@example.org" "battery staple" freshBackend
      = authAPI.login lowerASCII "bob@example.org" "battery staple"
          (account.create "u9" "bob@example.org" "battery staple" "Bob"
            (ID.unique freshBackend).2).2 ∧
    (authAPI.register lowerASCII "Bob" "bob@example.org" "battery staple" freshBackend).1
      = .ok "appwrite-session" :=
  ⟨(register_sequence lowerASCII "Bob" "bob@example.org" "battery staple" freshBackend).1 _ rfl,
   rfl⟩

/-- C22 fails as stated: Alice is already registered and `account.create` is
answered with a rate-limit error.  `authAPI.register` then pauses, calls
`createEmailPasswordSession` and resolves to the token, although no identity
was created. -/
theorem register_after_failed_create :
    (account.create "u9" "alice@example.org" "correct horse" "Alice"
        (ID.unique throttledSignup).2).1
      = .error ⟨"Rate limit for the current endpoint has been exceeded."⟩ ∧
    (authAPI.register lowerASCII "Alice" "alice@example.org" "correct horse"
        throttledSignup).1 = .ok "appwrite-session" ∧
    (authAPI.register lowerASCII "Alice" "alice@example.org" "correct horse"
        throttledSignup).2.log
      = [Call.accountCreate "u9" "alice@example.org" "correct horse" "Alice",
         Call.setTimeout 1500,
         Call.createEmailPasswordSession "alice@example.org" "correct horse"] ∧
    (authAPI.register lowerASCII "Alice" "alice@example.org" "correct horse"
        throttledSignup).2.accounts = throttledSignup.accounts := by
  refine ⟨rfl, rfl, rfl, rfl⟩

/-! ## Mapping a record -/

/-- C23. For every record, the `categoryName` of `mapDocument` is the name of
the entry of `STATIC_CATEGORIES` whose id is the record's `categoryId` when
there is one (`appliances` gives `Appliances`), and `Uncategorized` when there
is none, a missing `categoryId` included.  `mapDocument` is total: the lookup
cannot throw. -/
theorem mapDocument_categoryName (doc : RawDoc) :
    (∀ c ∈ STATIC_CATEGORIES, doc.categoryId = some c.id →
      (mapDocument doc).categoryName = c.name) ∧
    ((∀ c ∈ STATIC_CATEGORIES, doc.categoryId ≠ some c.id) →
      (mapDocument doc).categoryName = "Uncategorized") ∧
    (doc.categoryId = none → (mapDocument doc).categoryName = "Uncategorized") ∧
    (doc.categoryId = some "appliances" → (mapDocument doc).categoryName = "Appliances") := by
  refine ⟨?_, ?_, ?_, ?_⟩
  · intro c hc h
    simp only [STATIC_CATEGORIES, List.mem_cons, List.mem_singleton, List.not_mem_nil,
      or_false] at hc
    rcases hc with rfl | rfl | rfl | rfl | rfl <;>
      simp [mapDocument, STATIC_CATEGORIES, List.find?, h, jsOr]
  · intro h
    have hnone : STATIC_CATEGORIES.find? (fun c => decide (some c.id = doc.categoryId)) = none := by
      rw [List.find?_eq_none]
      intro c hc
      have := h c hc
      simpa [eq_comm] using this
    simp [mapDocument, hnone, jsOr]
  · intro h
    simp [mapDocument, STATIC_CATEGORIES, List.find?, h, jsOr]
  · intro h
    simp [mapDocument, STATIC_CATEGORIES, List.find?, h, jsOr]

theorem mapDocument_categoryName_witness :
    (mapDocument fridge).categoryName = "Appliances" ∧
    (mapDocument { fridge with categoryId := some "toys" }).categoryName = "Uncategorized" ∧
    (mapDocument { fridge with categoryId := none }).categoryName = "Uncategorized" :=
  ⟨(mapDocument_categoryName fridge).2.2.2 rfl,
   (mapDocument_categoryName { fridge with categoryId := some "toys" }).2.1 (by decide),
   (mapDocument_categoryName { fridge with categoryId := none }).2.2.1 rfl⟩

/-- C24. In every world `categoriesAPI.getAll` resolves, leaves the world as it
is (no call is logged), and gives the same five categories in the order of
their declaration: electronics, appliances, furniture, clothing, documents;
their ids are pairwise distinct. -/
theorem categories_fixed (w : World) :
    categoriesAPI.getAll w = (.ok STATIC_CATEGORIES, w) ∧
    (categoriesAPI.getAll w).2.log = w.log ∧
    STATIC_CATEGORIES =
      [⟨"electronics", "Electronics"⟩, ⟨"appliances", "Appliances"⟩,
       ⟨"furniture", "Furniture"⟩, ⟨"clothing", "Clothing"⟩, ⟨"documents", "Documents"⟩] ∧
    STATIC_CATEGORIES.map (fun c => c.id)
      = ["electronics", "appliances", "furniture", "clothing", "documents"] ∧
    (STATIC_CATEGORIES.map (fun c => c.id)).Nodup ∧
    (∀ v, (categoriesAPI.getAll v).1 = (categoriesAPI.getAll w).1) := by
  refine ⟨rfl, rfl, rfl, rfl, by decide, fun _ => rfl⟩

/-- C25. For every record, the `uploadDate` of `mapDocument` is the record's
own `uploadDate` when it has a non-empty one, and the record's `$createdAt`
when `uploadDate` is missing or empty. -/
theorem mapDocument_uploadDate (doc : RawDoc) :
    (∀ s, doc.uploadDate = some s → s ≠ "" → (mapDocument doc).uploadDate = s) ∧
    (doc.uploadDate = none → (mapDocument doc).uploadDate = doc.createdAt) ∧
    (doc.uploadDate = some "" → (mapDocument doc).uploadDate = doc.createdAt) := by
  refine ⟨?_, ?_, ?_⟩
  · intro s h hs
    simp [mapDocument, h, jsOr, hs]
  · intro h
    simp [mapDocument, h, jsOr]
  · intro h
    simp [mapDocument, h, jsOr]

theorem mapDocument_uploadDate_witness :
    (mapDocument { fridge with uploadDate := some "2023-12-24" }).uploadDate = "2023-12-24" ∧
    (mapDocument fridge).uploadDate = fridge.createdAt ∧
    (mapDocument { fridge with uploadDate := some "" }).uploadDate = fridge.createdAt :=
  ⟨(mapDocument_uploadDate { fridge with uploadDate := some "2023-12-24" }).1 _ rfl (by decide),
   (mapDocument_uploadDate fridge).2.1 rfl,
   (mapDocument_uploadDate { fridge with uploadDate := some "" }).2.2 rfl⟩

/-! ## The view URL -/

theorem viewUrl_toList (f : String) :
    (viewUrl f).toList
      = ("https://fra.cloud.appwrite.io/v1/storage/buckets/696f68c300002c339409/files/".toList
          ++ f.toList) ++ "/view?project=695d738e00398baf6e21".toList := by
  simp only [viewUrl, String.toList, String.data_append, APPWRITE_ENDPOINT,
    APPWRITE_BUCKET_ID, APPWRITE_PROJECT_ID]
  simp

theorem viewUrl_injective (f g : String) (h : viewUrl f = viewUrl g) : f = g := by
  have h2 := congrArg String.toList h
  rw [viewUrl_toList, viewUrl_toList] at h2
  have h3 := List.append_cancel_left (List.append_cancel_right h2)
  exact String.ext h3

/-- C26. When `uploadImageIfNeeded` resolves for an asset, with file id `f`, the
`imageUrl` it gives is the configured endpoint, `/storage/buckets/`, the
bucket id, `/files/`, `f`, `/view?project=` and the project id, in this order;
with the configured values that is the fixed text before `f` and the fixed text
after it.  The URL depends on `f` alone, and different file ids give different
URLs. -/
theorem upload_view_url (img : ImageAsset) (w w2 : World) (m : ImageMeta)
    (h : uploadImageIfNeeded (some img) w = (.ok (some m), w2)) :
    m.imageUrl = APPWRITE_ENDPOINT ++ "/storage/buckets/" ++ APPWRITE_BUCKET_ID ++ "/files/"
      ++ m.fileId ++ "/view?project=" ++ APPWRITE_PROJECT_ID ∧
    m.imageUrl =
      "https://fra.cloud.appwrite.io/v1/storage/buckets/696f68c300002c339409/files/"
        ++ m.fileId ++ "/view?project=695d738e00398baf6e21" ∧
    (∀ img2 v v2 m2, uploadImageIfNeeded (some img2) v = (.ok (some m2), v2) →
      (m2.fileId = m.fileId → m2.imageUrl = m.imageUrl) ∧
      (m2.fileId ≠ m.fileId → m2.imageUrl ≠ m.imageUrl)) := by
  obtain ⟨fid, hm, -⟩ := upload_ok img w w2 (some m) h
  simp only [Option.some.injEq] at hm
  subst hm
  refine ⟨rfl, ?_, ?_⟩
  · apply String.ext
    have := viewUrl_toList fid
    simpa [String.toList, String.data_append] using this
  · intro img2 v v2 m2 h2
    obtain ⟨fid2, hm2, -⟩ := upload_ok img2 v v2 (some m2) h2
    simp only [Option.some.injEq] at hm2
    subst hm2
    constructor
    · intro hf
      simp only at hf
      simp [hf]
    · intro hf hu
      exact hf (viewUrl_injective _ _ hu)

theorem upload_view_url_witness :
    (⟨"n1", viewUrl "n1"⟩ : ImageMeta).imageUrl =
      "https://fra.cloud.appwrite.io/v1/storage/buckets/696f68c300002c339409/files/"
        ++ (⟨"n1", viewUrl "n1"⟩ : ImageMeta).fileId ++ "/view?project=695d738e00398baf6e21" :=
  (upload_view_url photo ((worldOf alice).next .accountGet) _ ⟨"n1", viewUrl "n1"⟩ rfl).2.1

/-! ## What a delete leaves alone -/

theorem deleteDocument_snd_fields (id : String) (w : World) :
    (databases.deleteDocument id w).2.log = w.log ++ [.deleteDocument id] ∧
    (databases.deleteDocument id w).2.files = w.files := by
  unfold databases.deleteDocument
  split
  · simp [World.next]
  · split <;> simp [World.next]

theorem delete_owned (id : String) (w w1 w2 : World) (u : User) (r : RawDoc)
    (hu : account.get w = (.ok u, w1)) (hr : databases.getDocument id w1 = (.ok r, w2))
    (hown : r.userId = some u.id) :
    documentsAPI.delete id w = databases.deleteDocument id w2 := by
  unfold documentsAPI.delete
  simp only [hu, hr, hown, ne_eq, not_true_eq_false, if_false]
  rcases databases.deleteDocument id w2 with ⟨x, w3⟩
  cases x <;> rfl

/-- C27. For an owned record, `documentsAPI.delete(id)` makes the two reads and
one `deleteDocument` call and never touches the bucket, whether or not the
record references a file.  When the backend answers the `deleteDocument` call
the delete succeeds; and after a successful delete the collection is the old
one without the record of that id: a record is stored afterwards exactly when
it was stored before and has another id, unchanged and in the same order. -/
theorem delete_removes_only (id : String) (w w1 w2 : World) (u : User) (r : RawDoc)
    (hu : account.get w = (.ok u, w1)) (hr : databases.getDocument id w1 = (.ok r, w2))
    (hown : r.userId = some u.id) :
    (documentsAPI.delete id w).2.files = w.files ∧
    (documentsAPI.delete id w).2.log
      = w.log ++ [Call.accountGet, Call.getDocument id, Call.deleteDocument id] ∧
    (w2.fault = none → (documentsAPI.delete id w).1 = .ok ()) ∧
    (∀ w3, documentsAPI.delete id w = (.ok (), w3) →
      w3.documents = w.documents.filter (fun d => decide (d.id ≠ id)) ∧
      (∀ x, x ∈ w3.documents ↔ x ∈ w.documents ∧ x.id ≠ id) ∧
      w3.documents.Sublist w.documents ∧
      w3.files = w.files) := by
  obtain ⟨hlog, hfiles, hdocs, hfind⟩ := after_reads id w w1 w2 u r hu hr
  have hmain := delete_owned id w w1 w2 u r hu hr hown
  have hs := deleteDocument_snd_fields id w2
  refine ⟨?_, ?_, ?_, ?_⟩
  · rw [hmain, hs.2, hfiles]
  · rw [hmain, hs.1, hlog]; simp
  · intro hnf
    rw [hmain]
    have hany : w2.documents.any (fun d => decide (d.id = id)) = true := by
      rw [hdocs, List.any_eq_true]
      have hm := List.mem_of_find?_eq_some hfind
      have hp := List.find?_some hfind
      exact ⟨r, hm, hp⟩
    unfold databases.deleteDocument
    simp [hnf, hany]
  · intro w3 hdel
    obtain ⟨h1, h2⟩ := delete_ok id w w3 hdel
    refine ⟨h1, ?_, ?_, h2⟩
    · intro x
      rw [h1, List.mem_filter]
      simp
    · rw [h1]
      exact List.filter_sublist _

theorem delete_removes_only_witness :
    (documentsAPI.delete "d2" signedIn).2.files = signedIn.files ∧
    (documentsAPI.delete "d2" signedIn).2.log
      = signedIn.log ++ [Call.accountGet, Call.getDocument "d2", Call.deleteDocument "d2"] ∧
    (documentsAPI.delete "d2" signedIn).1 = .ok () ∧
    (documentsAPI.delete "d2" signedIn).2.documents = [fridge] := by
  have h := delete_removes_only "d2" signedIn _ _ alice lamp rfl rfl rfl
  exact ⟨h.1, h.2.1, h.2.2.1 rfl, rfl⟩

/-! ## Signing out -/

theorem deleteSession_snd_fields (sessionId : String) (w : World) :
    (account.deleteSession sessionId w).2.log = w.log ++ [.deleteSession sessionId] ∧
    (account.deleteSession sessionId w).2.storage = w.storage ∧
    (account.deleteSession sessionId w).2.faults = w.faults.tail := by
  unfold account.deleteSession
  split
  · simp [World.next]
  · split <;> simp [World.next]

/-- C28. For every state of `App` and every world, `authContext.signOut` makes
the `deleteSession('current')` call and then the `removeItem('userToken')`
call, whatever the first one did: an error of `deleteSession` never becomes the
outcome of `signOut`.  When the device store carries out the removal, `signOut`
resolves, the store has no `userToken` entry any more (its other entries are
kept) and the `userToken` state is `null`, whether `deleteSession` succeeded or
failed. -/
theorem signOut_clears_token (st : AppState) (w : World) :
    (authContext.signOut st w).2.2.log
      = w.log ++ [Call.deleteSession "current", Call.removeItem "userToken"] ∧
    ((account.deleteSession "current" w).2.fault = none →
      (authContext.signOut st w).1 = .ok () ∧
      (authContext.signOut st w).2.1.userToken = none ∧
      (authContext.signOut st w).2.2.storage
        = w.storage.filter (fun kv => decide (kv.1 ≠ "userToken")) ∧
      (∀ v, ("userToken", v) ∉ (authContext.signOut st w).2.2.storage)) ∧
    (∀ e, (authContext.signOut st w).1 = .error e →
      (account.deleteSession "current" w).2.fault = some e) := by
  obtain ⟨hlog, hsto, -⟩ := deleteSession_snd_fields "current" w
  refine ⟨?_, ?_, ?_⟩
  · unfold authContext.signOut AsyncStorage.removeItem
    split <;> rename_i h <;> split at h <;>
      simp only [Prod.mk.injEq] at h <;> obtain ⟨-, rfl⟩ := h <;> simp [World.next, hlog]
  · intro hnf
    have hrun : authContext.signOut st w =
        (.ok (), { st with userToken := none },
         { (account.deleteSession "current" w).2.next (.removeItem "userToken") with
           storage := w.storage.filter (fun kv => decide (kv.1 ≠ "userToken")) }) := by
      unfold authContext.signOut AsyncStorage.removeItem
      simp [hnf, hsto]
    rw [hrun]
    refine ⟨rfl, rfl, rfl, ?_⟩
    intro v hv
    simp [List.mem_filter] at hv
  · intro e he
    unfold authContext.signOut AsyncStorage.removeItem at he
    cases hf : (account.deleteSession "current" w).2.fault with
    | none => simp [hf] at he
    | some e2 =>
      simp only [hf, Except.error.injEq] at he
      rw [he]

theorem signOut_clears_token_witness :
    (authContext.signOut ⟨false, some "appwrite-session"⟩
        { signedIn with faults := [some ⟨"Network request failed"⟩] }).1 = .ok () ∧
    (authContext.signOut ⟨false, some "appwrite-session"⟩
        { signedIn with faults := [some ⟨"Network request failed"⟩] }).2.1.userToken = none ∧
    (authContext.signOut ⟨false, some "appwrite-session"⟩
        { signedIn with faults := [some ⟨"Network request failed"⟩] }).2.2.storage
      = [("theme", "dark")] := by
  have h := (signOut_clears_token ⟨false, some "appwrite-session"⟩
    { signedIn with faults := [some ⟨"Network request failed"⟩] }).2.1 rfl
  exact ⟨h.1, h.2.1, rfl⟩

/-! ## The shape and the safety of the filter -/

/-- The text filter throws as soon as one document has no title. -/
theorem filterArray_untitled (lower : String → String) (query : String)
    (docs : List Document) (h : ∃ d ∈ docs, d.title = none) :
    filterArray (searchCallback lower query) docs = .error typeError := by
  induction docs with
  | nil => simp at h
  | cons x xs ih =>
    cases hx : x.title with
    | none => simp [filterArray, searchCallback, hx]
    | some t =>
      have hrest : ∃ d ∈ xs, d.title = none := by
        obtain ⟨d, hd, hn⟩ := h
        rcases List.mem_cons.mp hd with rfl | hd2
        · rw [hx] at hn; simp at hn
        · exact ⟨d, hd2, hn⟩
      simp [filterArray, searchCallback, hx, ih hrest]

/-- Either every document has a title or one of them has none. -/
theorem titled_or_not (docs : List Document) :
    (∀ d ∈ docs, d.title ≠ none) ∨ ∃ d ∈ docs, d.title = none := by
  by_cases h : ∃ d ∈ docs, d.title = none
  · exact Or.inr h
  · left
    intro d hd hn
    exact h ⟨d, hd, hn⟩

/-- When `filterDocuments` throws, the search text is non-empty and a document
has no title, and the error is the `TypeError`. -/
theorem filterDocuments_error (lower : String → String) (docs : List Document) (q : String)
    (c : Option String) (e : JSError) (h : filterDocuments lower docs q c = .error e) :
    q ≠ "" ∧ (∃ d ∈ docs, d.title = none) ∧ e = typeError := by
  rcases titled_or_not docs with ht | hu
  · rw [filterDocuments_titled lower docs q c ht] at h
    simp at h
  · by_cases hq : q = ""
    · subst hq
      unfold filterDocuments at h
      by_cases hc : truthy c = true <;> simp [hc] at h
    · refine ⟨hq, hu, ?_⟩
      unfold filterDocuments at h
      simp only [ne_eq, hq, not_false_eq_true, if_true,
        filterArray_untitled lower (lower q) docs hu, Except.error.injEq] at h
      exact h.symm

/-- C29. Whenever `filterDocuments` yields a list for a search text and a
category, that list is a sublist of `documents` (its elements, in the order
they have there), it is not longer than `documents`, and filtering it again
with the same text and category yields it unchanged.  On documents that all
have a title `filterDocuments` does yield a list. -/
theorem filterDocuments_sublist (lower : String → String) (docs : List Document) (q : String)
    (c : Option String) :
    (∀ res, filterDocuments lower docs q c = .ok res →
      res.Sublist docs ∧ res.length ≤ docs.length ∧
      filterDocuments lower res q c = .ok res) ∧
    ((∀ d ∈ docs, d.title ≠ none) → ∃ res, filterDocuments lower docs q c = .ok res) := by
  constructor
  · intro res hres
    by_cases hq : q = ""
    · subst hq
      by_cases hc : truthy c = true
      · have hr : res = docs.filter (fun doc => decide (doc.categoryId = c)) := by
          simp [filterDocuments, hc] at hres
          exact hres.symm
        subst hr
        refine ⟨List.filter_sublist _, List.length_filter_le _ _, ?_⟩
        simp [filterDocuments, hc, List.filter_filter]
      · have hr : res = docs := by
          simp [filterDocuments, hc] at hres
          exact hres.symm
        subst hr
        exact ⟨List.Sublist.refl _, le_refl _, hres⟩
    · have ht : ∀ d ∈ docs, d.title ≠ none := by
        rcases titled_or_not docs with ht | hu
        · exact ht
        · exfalso
          unfold filterDocuments at hres
          simp [hq, filterArray_untitled lower (lower q) docs hu] at hres
      rw [filterDocuments_titled lower docs q c ht] at hres
      simp only [ne_eq, hq, not_false_eq_true, if_true, Except.ok.injEq] at hres
      by_cases hc : truthy c = true
      · simp only [hc, if_true] at hres
        subst hres
        have hsub : ((docs.filter (containsText lower q)).filter
            (fun d => decide (d.categoryId = c))).Sublist docs :=
          (List.filter_sublist _).trans (List.filter_sublist _)
        refine ⟨hsub, hsub.length_le, ?_⟩
        rw [filterDocuments_titled lower _ q c (fun d hd => ht d (hsub.subset hd))]
        simp [hq, hc, List.filter_filter]
        apply List.filter_congr
        intro d _
        cases containsText lower q d <;> cases decide (d.categoryId = c) <;> rfl
      · simp only [hc, Bool.false_eq_true, if_false, id] at hres
        subst hres
        have hsub : (docs.filter (containsText lower q)).Sublist docs := List.filter_sublist _
        refine ⟨hsub, hsub.length_le, ?_⟩
        rw [filterDocuments_titled lower _ q c (fun d hd => ht d (hsub.subset hd))]
        simp [hq, hc, List.filter_filter]
  · intro ht
    exact ⟨_, filterDocuments_titled lower docs q c ht⟩

theorem filterDocuments_sublist_witness :
    ∃ res, filterDocuments lowerASCII milkDocs "MiLk" (some "appliances") = .ok res ∧
      res.Sublist milkDocs ∧ res.length ≤ milkDocs.length ∧
      filterDocuments lowerASCII res "MiLk" (some "appliances") = .ok res := by
  have h := filterDocuments_sublist lowerASCII milkDocs "MiLk" (some "appliances")
  obtain ⟨res, hres⟩ := h.2 (by decide)
  exact ⟨res, hres, h.1 res hres⟩

/-- C30. On documents that all have a title `filterDocuments` yields a list for
every search text and every category, whether or not `store` and `notes` are
present.  It throws only when the search text is non-empty and some document
has no title, and in that case it does throw (a `TypeError`). -/
theorem filterDocuments_safe (lower : String → String) (docs : List Document) (q : String)
    (c : Option String) :
    ((∀ d ∈ docs, d.title ≠ none) → ∃ res, filterDocuments lower docs q c = .ok res) ∧
    (∀ e, filterDocuments lower docs q c = .error e →
      q ≠ "" ∧ (∃ d ∈ docs, d.title = none) ∧ e = typeError) ∧
    (q ≠ "" → (∃ d ∈ docs, d.title = none) →
      filterDocuments lower docs q c = .error typeError) ∧
    (q = "" → ∃ res, filterDocuments lower docs q c = .ok res) := by
  refine ⟨fun ht => ⟨_, filterDocuments_titled lower docs q c ht⟩,
    fun e he => filterDocuments_error lower docs q c e he, ?_, ?_⟩
  · intro hq hu
    unfold filterDocuments
    simp [hq, filterArray_untitled lower (lower q) docs hu]
  · intro hq
    subst hq
    unfold filterDocuments
    by_cases hc : truthy c = true <;> simp [hc]

theorem filterDocuments_safe_witness :
    (∃ res, filterDocuments lowerASCII milkDocs "MiLk" none = .ok res) ∧
    filterDocuments lowerASCII
        [{ id := "x", title := none, categoryId := none, categoryName := "Uncategorized",
           store := none, uploadDate := "2024-01-01", expirationDate := none, notes := none,
           imageUrl := none }] "milk" none = .error typeError :=
  ⟨(filterDocuments_safe lowerASCII milkDocs "MiLk" none).1 (by decide),
   (filterDocuments_safe lowerASCII
      [{ id := "x", title := none, categoryId := none, categoryName := "Uncategorized",
         store := none, uploadDate := "2024-01-01", expirationDate := none, notes := none,
         imageUrl := none }] "milk" none).2.2.1 (by decide) (by decide)⟩

end Dokubox
